import Mathlib

/-! # ESP32 TWAI controller: command session and wizard state machine

A shallow embedding of `src/main.cpp`.  The globals of the sketch become the
fields of `State`; each C++ function becomes a function on `State`.  The bus
driver is an environment: the outcomes of the successive `twai_receive` calls
are the list `bus` (an exhausted list times out), and every call that leaves
the program (`twai_receive`, `twai_transmit`, `delay`) and every write of the
last-command slot is appended to `trace`.  What the operator types reaches a
handler as an argument; text written to `Serial` is left out.  The type `float`
is binary32 with round-to-nearest-even multiplication.
-/

namespace TwaiController

/-! ## Data model -/

/-- The driver's frame record `twai_message_t`: identifier, data length code,
flags word and the payload bytes (an array of 8 bytes in the driver). -/
structure twai_message_t where
  identifier : Nat
  data_length_code : Nat
  flags : Nat
  data : List Nat
deriving DecidableEq, Repr

/-- Modelled from the spec: the extended-frame marker `TWAI_MSG_FLAG_EXTD` of
`driver/twai.h`, a header that is not part of the repository. -/
def TWAI_MSG_FLAG_EXTD : Nat := 1

/-- The wizard step, `enum Step`. -/
inductive Step where
  | STEP_SELECT_MODE
  | STEP_SET_MODE
  | STEP_INPUT_PHASE
  | STEP_SET_PHASE
  | STEP_POWER_CTRL
  | STEP_POWER_ON
deriving DecidableEq, Repr

/-- What the program does to the outside, in the order it does it. -/
inductive Event where
  /-- The body of `send_command` ran: the slot now holds this identifier and payload. -/
  | publish (can_id : Nat) (data : List Nat)
  /-- One call of `twai_receive`, with what it delivered (`none` is a timeout). -/
  | receive (timeout_ms : Nat) (result : Option twai_message_t)
  /-- One call of `twai_transmit`. -/
  | transmit (msg : twai_message_t) (timeout_ms : Nat)
  /-- One call of `delay`. -/
  | delay (ms : Nat)
deriving DecidableEq, Repr

/-- The globals of the sketch, followed by the environment (`bus`, `trace`). -/
structure State where
  rx_msg : twai_message_t
  last_cmd : twai_message_t
  has_cmd : Bool
  repeat_enabled : Bool
  power_on : Bool
  step : Step
  selected_mode : Nat
  phase_cmd : List Nat
  /-- Outcomes of the coming `twai_receive` calls, first call first. -/
  bus : List (Option twai_message_t)
  /-- The events so far, oldest first. -/
  trace : List Event
deriving DecidableEq, Repr

/-- A zero-initialised frame, as a C++ global starts out. -/
def zero_msg : twai_message_t :=
  { identifier := 0, data_length_code := 0, flags := 0, data := [0, 0, 0, 0, 0, 0, 0, 0] }

/-- The state at start-up, facing the given bus behaviour. -/
def initial (bus : List (Option twai_message_t)) : State :=
  { rx_msg := zero_msg, last_cmd := zero_msg, has_cmd := false, repeat_enabled := true,
    power_on := false, step := Step.STEP_SELECT_MODE, selected_mode := 0,
    phase_cmd := [0, 0, 0, 0, 0, 0, 0, 0], bus := bus, trace := [] }

/-! ## Driver and library calls -/

/-- The driver call `twai_receive(&rx_msg, ticks)`: takes the next outcome of the
bus; a frame is written to `rx_msg` and the call reports `ESP_OK` (`true`),
a timeout leaves `rx_msg` alone and reports failure. -/
def twai_receive (timeout_ms : Nat) (s : State) : Bool × State :=
  match s.bus with
  | [] => (false, { s with trace := s.trace ++ [Event.receive timeout_ms none] })
  | none :: rest =>
      (false, { s with bus := rest, trace := s.trace ++ [Event.receive timeout_ms none] })
  | some m :: rest =>
      (true, { s with rx_msg := m, bus := rest,
                      trace := s.trace ++ [Event.receive timeout_ms (some m)] })

/-- The driver call `twai_transmit(&msg, ticks)`; its result is never used. -/
def twai_transmit (msg : twai_message_t) (timeout_ms : Nat) (s : State) : State :=
  { s with trace := s.trace ++ [Event.transmit msg timeout_ms] }

/-- The Arduino call `delay(ms)`. -/
def delay (ms : Nat) (s : State) : State :=
  { s with trace := s.trace ++ [Event.delay ms] }

/-- The C library `memcmp` on the first `n` bytes of two arrays that are at
least `n` bytes long: zero exactly when those bytes agree, otherwise the
difference of the first pair that differs. -/
def memcmp : List Nat → List Nat → Nat → Int
  | a :: as, b :: bs, n + 1 => if a = b then memcmp as bs n else (a : Int) - (b : Int)
  | _, _, _ => 0

/-! ## Keep-alive repeater and command session -/

/-- One turn of the `while (true)` loop of `repeat_command_task`, without its sleep. -/
def repeat_command_task (s : State) : State :=
  if s.has_cmd && s.repeat_enabled then twai_transmit s.last_cmd 100 s else s

/-- The function `send_command`: stores the frame in `last_cmd` and sets `has_cmd`. -/
def send_command (can_id : Nat) (data : List Nat) (s : State) : State :=
  { s with
    last_cmd := { identifier := can_id, data_length_code := 8,
                  flags := TWAI_MSG_FLAG_EXTD, data := data.take 8 }
    has_cmd := true
    trace := s.trace ++ [Event.publish can_id (data.take 8)] }

/-- The acceptance test inside `check_response`:
`(rx_msg.identifier & 0x1FFFFFFF) == 0x061F8008 && memcmp(rx_msg.data, expected_prefix, 4) == 0`. -/
def response_matches (rx : twai_message_t) ( expected_prefix : List Nat) : Bool :=
  decide (rx.identifier &&& 0x1FFFFFFF = 0x061F8008)
    && decide (memcmp rx.data expected_prefix 4 = 0)

/-- The function `check_response`: pauses the repeater, waits for one frame,
applies the acceptance test to it, resumes the repeater. -/
def check_response ( expected_prefix : List Nat) (timeout_ms : Nat) (s : State) : Bool × State :=
  let s1 := { s with repeat_enabled := false }
  let r := twai_receive timeout_ms s1
  let s2 := r.2
  let matched := r.1 && response_matches s2.rx_msg expected_prefix
  (matched, { s2 with repeat_enabled := true })

/-- The `for` loop of `send_command_with_retry` with `remaining` turns left. -/
def retry_loop (can_id : Nat) (data expected_response : List Nat) : Nat → State → Bool × State
  | 0, s => (false, s)
  | remaining + 1, s =>
      let s1 := send_command can_id data s
      let r := check_response expected_response 500 s1
      if r.1 then (true, r.2)
      else retry_loop can_id data expected_response remaining (delay 300 r.2)

/-- The function `send_command_with_retry`; `max_retries` is a C++ `int`, a
value below one gives no turn of the loop. -/
def send_command_with_retry (can_id : Nat) (data expected_response : List Nat)
    (max_retries : Int) (s : State) : Bool × State :=
  retry_loop can_id data expected_response max_retries.toNat s

/-! ## Command tables -/

/-- The table of `get_mode_cmd`. -/
def mode_cmds : List (List Nat) :=
  [[0x03, 0x00, 0x00, 0x2F, 0x00, 0x01, 0x00, 0x00],
   [0x03, 0x00, 0x00, 0x2F, 0x00, 0x01, 0x00, 0x01],
   [0x03, 0x00, 0x00, 0x2F, 0x00, 0x01, 0x00, 0x02]]

/-- The function `get_mode_cmd`, defined for the indices 0, 1, 2. -/
def get_mode_cmd (index : Nat) : List Nat := mode_cmds.getD index []

/-- The table of `get_mode_response`. -/
def mode_response : List (List Nat) :=
  [[0x42, 0xF0, 0x00, 0x2F, 0x00, 0x01, 0x00, 0x00],
   [0x42, 0xF0, 0x00, 0x2F, 0x00, 0x01, 0x00, 0x01],
   [0x42, 0xF0, 0x00, 0x2F, 0x00, 0x01, 0x00, 0x02]]

/-- The function `get_mode_response`, defined for the indices 0, 1, 2. -/
def get_mode_response (index : Nat) : List Nat := mode_response.getD index []

def phase_cmd_resp : List Nat := [0x42, 0xF0, 0x00, 0x84]
def power_on_cmd : List Nat := [0x03, 0x00, 0x00, 0x30, 0x00, 0x00, 0x00, 0x00]
def power_off_cmd : List Nat := [0x03, 0x00, 0x00, 0x30, 0x00, 0x01, 0x00, 0x00]
def power_on_resp : List Nat := [0x42, 0xF0, 0x00, 0x30, 0x00, 0x00, 0x00, 0x00]
def power_off_resp : List Nat := [0x42, 0xF0, 0x00, 0x30, 0x00, 0x01, 0x00, 0x00]

/-! ## Single-precision numbers -/

/-- A finite value of the C++ type `float`, written as the number `m * 2 ^ e`.
A binary32 value has `|m| < 2 ^ 24` and `-149 ≤ e ≤ 104`. -/
structure float where
  m : Int
  e : Int
deriving DecidableEq, Repr

/-- The rational number a `float` stands for. -/
def float.toRat (x : float) : ℚ := (x.m : ℚ) * (2 : ℚ) ^ x.e

/-- The C++ comparison `a < b` of two finite values. -/
def float.lt (a b : float) : Bool :=
  let c := min a.e b.e
  decide (a.m * 2 ^ (a.e - c).toNat < b.m * 2 ^ (b.e - c).toNat)

/-- Number of binary digits of `n`, by halving at most `fuel` times. -/
def bitlen_aux : Nat → Nat → Nat
  | 0, _ => 0
  | fuel + 1, n => if n = 0 then 0 else bitlen_aux fuel (n / 2) + 1

/-- Number of binary digits of `n`. -/
def bitlen (n : Nat) : Nat := bitlen_aux n n

/-- The quotient `n / 2 ^ k` rounded to the nearest integer, a tie going to the
even neighbour (the IEEE 754 default rounding). -/
def roundShift (n k : Nat) : Nat :=
  let q := n / 2 ^ k
  let r := n % 2 ^ k
  if 2 * r < 2 ^ k then q
  else if 2 ^ k < 2 * r then q + 1
  else q + q % 2

/-- Rounding of an exact result `m * 2 ^ e` to binary32: at most 24 significant
binary digits and no digit below `2 ^ (-149)`.  Overflow to infinity is not
modelled; no product below `2 ^ 128` in size meets it. -/
def round32 (x : float) : float :=
  let n := x.m.natAbs
  let k := max (bitlen n - 24) (-149 - x.e).toNat
  { m := x.m.sign * (roundShift n k : Int), e := x.e + (k : Int) }

/-- The C++ product `a * b` of two `float` values. -/
def float.mul (a b : float) : float :=
  round32 { m := a.m * b.m, e := a.e + b.e }

/-- The integer part of a `float`, fraction dropped (rounding toward zero). -/
def float.trunc (x : float) : Int :=
  if 0 ≤ x.e then x.m * 2 ^ x.e.toNat else Int.tdiv x.m (2 ^ (-x.e).toNat)

/-- The conversion `static_cast<uint16_t>(x)`: the integer part of `x`.  C++
defines it only when that integer lies in `0 .. 65535`; elsewhere the model
keeps the low 16 bits. -/
def to_uint16 (x : float) : Nat := (x.trunc % 65536).toNat

/-- The function `floatToHexBytes`, returning `(high, low)`. -/
def floatToHexBytes (value unit_scale : float) : Nat × Nat :=
  let scaled := to_uint16 (float.mul value unit_scale)
  ((scaled >>> 8) &&& 0xFF, scaled &&& 0xFF)

/-! ## Operator input -/

/-- What the operator supplies during one turn of `loop`: the character read by
`Serial.read`, the number read by `Serial.parseFloat`, the line read by
`Serial.readStringUntil`.  A handler uses the one it reads. -/
structure Operator where
  ch : Char
  voltage : float
  line : String

/-- The C library `isspace` in the default locale. -/
def isspace (c : Char) : Bool :=
  c = ' ' || (9 ≤ c.toNat && c.toNat ≤ 13)

/-- The Arduino method `String::trim`: drops the white space at both ends. -/
def trim (cmd : String) : String :=
  String.mk ((cmd.data.dropWhile isspace).reverse.dropWhile isspace).reverse

/-! ## Wizard step handlers -/

/-- The handler `handleModeSelection`, given the character read. -/
def handleModeSelection (ch : Char) (s : State) : State :=
  let s0 := { s with repeat_enabled := false }
  let chosen : Option Nat :=
    if ch = '2' then some 1
    else if ch = '3' then some 2
    else if ch = '1' then some 0
    else none
  match chosen with
  | none => s0
  | some mode =>
      { s0 with selected_mode := mode, repeat_enabled := true, step := Step.STEP_SET_MODE }

/-- The handler `handleSetMode`. -/
def handleSetMode (s : State) : State :=
  let r := send_command_with_retry 0x06180F81 (get_mode_cmd s.selected_mode)
    (get_mode_response s.selected_mode) 5 s
  if r.1 then { r.2 with step := Step.STEP_INPUT_PHASE } else r.2

/-- The handler `handlePhaseVoltage`, given the number read. -/
def handlePhaseVoltage (voltage_input : float) (s : State) : State :=
  if float.lt { m := 420, e := 0 } voltage_input then s
  else
    let volt := floatToHexBytes voltage_input { m := 10, e := 0 }
    let freq := floatToHexBytes { m := 60, e := 0 } { m := 1000, e := 0 }
    { s with phase_cmd := [0x03, 0x00, 0x00, 0x84, volt.1, volt.2, freq.1, freq.2],
             step := Step.STEP_SET_PHASE }

/-- The handler `handleSetPhase`. -/
def handleSetPhase (s : State) : State :=
  let r := send_command_with_retry 0x06180F81 s.phase_cmd phase_cmd_resp 5 s
  if r.1 then { r.2 with step := Step.STEP_POWER_CTRL } else r.2

/-- The handler `handlePowerControl`, given the line read. -/
def handlePowerControl (line : String) (s : State) : State :=
  if trim line = "on" then { s with power_on := true, step := Step.STEP_POWER_ON } else s

/-- The handler `handlePowerOnOff`; the line is read only after a successful power-on. -/
def handlePowerOnOff (line : String) (s : State) : State :=
  let r := send_command_with_retry 0x06180F81 power_on_cmd power_on_resp 5 s
  if r.1 then
    if trim line = "off" then
      let s1 := { r.2 with power_on := false }
      let r2 := send_command_with_retry 0x06180F81 power_off_cmd power_off_resp 5 s1
      if r2.1 then { r2.2 with step := Step.STEP_SELECT_MODE } else r2.2
    else r.2
  else r.2

/-- One turn of the Arduino `loop`. -/
def loop (op : Operator) (s : State) : State :=
  match s.step with
  | Step.STEP_SELECT_MODE => handleModeSelection op.ch s
  | Step.STEP_SET_MODE => handleSetMode s
  | Step.STEP_INPUT_PHASE => handlePhaseVoltage op.voltage s
  | Step.STEP_SET_PHASE => handleSetPhase s
  | Step.STEP_POWER_CTRL => handlePowerControl op.line s
  | Step.STEP_POWER_ON => handlePowerOnOff op.line s

/-! ## Basic facts about the session -/

/-- The frame that `send_command` leaves in the slot. -/
def command_frame (can_id : Nat) (data : List Nat) : twai_message_t :=
  { identifier := can_id, data_length_code := 8, flags := TWAI_MSG_FLAG_EXTD, data := data.take 8 }

/-- The events of one attempt whose receive delivered `r` and was not accepted. -/
def failed_attempt (can_id : Nat) (data : List Nat) (r : Option twai_message_t) : List Event :=
  [Event.publish can_id (data.take 8), Event.receive 500 r, Event.delay 300]

/-- The acceptance test applied to what a receive delivered; a timeout never matches. -/
def outcome_matches ( expected_prefix : List Nat) : Option twai_message_t → Bool
  | none => false
  | some m => response_matches m expected_prefix

/-- The values of the model that are binary32 numbers: 24 significant binary
digits, smallest digit weight `2 ^ (-149)`, largest `2 ^ 127`. -/
def float.is_binary32 (x : float) : Prop :=
  x.m.natAbs < 2 ^ 24 ∧ -149 ≤ x.e ∧ x.e ≤ 104

/-- Whether an event is a call of `twai_transmit`. -/
def is_transmit : Event → Bool
  | Event.transmit _ _ => true
  | _ => false

/-- Number of `twai_transmit` calls in a trace. -/
def transmit_count (tr : List Event) : Nat := tr.countP is_transmit

/-- The integer value of a step in `enum Step`. -/
def Step.toNat : Step → Nat
  | Step.STEP_SELECT_MODE => 0
  | Step.STEP_SET_MODE => 1
  | Step.STEP_INPUT_PHASE => 2
  | Step.STEP_SET_PHASE => 3
  | Step.STEP_POWER_CTRL => 4
  | Step.STEP_POWER_ON => 5

/-- Successive turns of `loop`, one per operator input, first input first. -/
def run_loop : List Operator → State → State
  | [], s => s
  | op :: ops, s => run_loop ops (loop op s)

/-- The slot holds a well-formed command: the fixed command identifier, eight
data bytes, the extended-frame flag, first payload byte `0x03`. -/
def slot_ok (s : State) : Prop :=
  s.last_cmd.identifier = 0x06180F81 ∧ s.last_cmd.data_length_code = 8 ∧
    s.last_cmd.flags = TWAI_MSG_FLAG_EXTD ∧ s.last_cmd.data.head? = some 3

/-- What every turn of `loop` keeps true: the mode index is in the table, the
phase payload is built by the time the step is SetPhase, an occupied slot is
well formed. -/
def wizard_inv (s : State) : Prop :=
  s.selected_mode < 3 ∧
    (s.step = Step.STEP_SET_PHASE → s.phase_cmd.head? = some 3) ∧
    (s.has_cmd = true → slot_ok s)

theorem check_response_nil ( expected_prefix : List Nat) (t : Nat) (s : State)
    (hb : s.bus = []) :
    check_response expected_prefix t s =
      (false, { s with repeat_enabled := true,
                       trace := s.trace ++ [Event.receive t none] }) := by
  simp [check_response, twai_receive, hb]

theorem check_response_cons ( expected_prefix : List Nat) (t : Nat) (s : State)
    (r : Option twai_message_t) (rest : List (Option twai_message_t))
    (hb : s.bus = r :: rest) :
    check_response expected_prefix t s =
      (outcome_matches expected_prefix r,
       { s with repeat_enabled := true, bus := rest,
                rx_msg := r.getD s.rx_msg,
                trace := s.trace ++ [Event.receive t r] }) := by
  cases r <;> simp [check_response, twai_receive, hb, outcome_matches]

/-- One turn of the retry loop on a state whose bus is exhausted. -/
theorem retry_loop_succ_nil (can_id : Nat) (data expected_response : List Nat) (n : Nat)
    (s : State) (hb : s.bus = []) :
    retry_loop can_id data expected_response (n + 1) s =
      retry_loop can_id data expected_response n
        { s with last_cmd := command_frame can_id data, has_cmd := true, repeat_enabled := true,
                 trace := s.trace ++ failed_attempt can_id data none } := by
  have hb1 : (send_command can_id data s).bus = [] := by simp [send_command, hb]
  rw [retry_loop]
  simp only [check_response_nil expected_response 500 _ hb1]
  simp [send_command, delay, command_frame, failed_attempt]

/-- One turn of the retry loop on a state whose bus has a next outcome. -/
theorem retry_loop_succ_cons (can_id : Nat) (data expected_response : List Nat) (n : Nat)
    (s : State) (r : Option twai_message_t) (rest : List (Option twai_message_t))
    (hb : s.bus = r :: rest) :
    retry_loop can_id data expected_response (n + 1) s =
      if outcome_matches expected_response r then
        (true, { s with last_cmd := command_frame can_id data, has_cmd := true,
                        repeat_enabled := true, bus := rest, rx_msg := r.getD s.rx_msg,
                        trace := s.trace ++
                          [Event.publish can_id (data.take 8), Event.receive 500 r] })
      else
        retry_loop can_id data expected_response n
          { s with last_cmd := command_frame can_id data, has_cmd := true,
                   repeat_enabled := true, bus := rest, rx_msg := r.getD s.rx_msg,
                   trace := s.trace ++ failed_attempt can_id data r } := by
  have hb1 : (send_command can_id data s).bus = r :: rest := by simp [send_command, hb]
  rw [retry_loop]
  simp only [check_response_cons expected_response 500 _ r rest hb1]
  cases outcome_matches expected_response r <;>
    simp [send_command, delay, command_frame, failed_attempt]

/-- On a bus that only times out the loop runs all its turns and fails, each
turn leaving the events of one failed attempt. -/
theorem retry_loop_all_timeout (can_id : Nat) (data expected_response : List Nat) (n : Nat) :
    ∀ s : State, (∀ r ∈ s.bus, r = none) →
      (retry_loop can_id data expected_response n s).1 = false ∧
      (retry_loop can_id data expected_response n s).2.trace =
        s.trace ++ (List.replicate n (failed_attempt can_id data none)).flatten := by
  induction n with
  | zero => intro s _; simp [retry_loop]
  | succ n ih =>
      intro s h
      rcases hb : s.bus with _ | ⟨r, rest⟩
      · rw [retry_loop_succ_nil can_id data expected_response n s hb]
        have := ih { s with last_cmd := command_frame can_id data, has_cmd := true,
                            repeat_enabled := true,
                            trace := s.trace ++ failed_attempt can_id data none }
          (by simpa using h)
        simpa [List.replicate_succ, List.append_assoc] using this
      · have hr : r = none := h r (by simp [hb])
        subst hr
        have hrest : ∀ x ∈ rest, x = none := fun x hx => h x (by simp [hb, hx])
        rw [retry_loop_succ_cons can_id data expected_response n s none rest hb]
        have := ih { s with last_cmd := command_frame can_id data, has_cmd := true,
                            repeat_enabled := true, bus := rest,
                            rx_msg := (none : Option twai_message_t).getD s.rx_msg,
                            trace := s.trace ++ failed_attempt can_id data none }
          (by simpa using hrest)
        simpa [outcome_matches, List.replicate_succ, List.append_assoc] using this

/-- When the first accepted frame is preceded by `pre.length` outcomes that are
not accepted and the loop has more turns than that, it stops with success at
that frame. -/
theorem retry_loop_first_match (can_id : Nat) (data expected_response : List Nat) :
    ∀ (pre : List (Option twai_message_t)) (n : Nat) (s : State) (m : twai_message_t)
      (post : List (Option twai_message_t)),
      s.bus = pre ++ some m :: post →
      (∀ r ∈ pre, outcome_matches expected_response r = false) →
      response_matches m expected_response = true →
      pre.length < n →
      retry_loop can_id data expected_response n s =
        (true, { s with last_cmd := command_frame can_id data, has_cmd := true,
                        repeat_enabled := true, bus := post, rx_msg := m,
                        trace := s.trace ++
                          ((pre.map (failed_attempt can_id data)).flatten ++
                            [Event.publish can_id (data.take 8),
                             Event.receive 500 (some m)]) }) := by
  intro pre
  induction pre with
  | nil =>
      intro n s m post hb _ hm hn
      obtain ⟨k, rfl⟩ : ∃ k, n = k + 1 := ⟨n - 1, by simp at hn; omega⟩
      rw [retry_loop_succ_cons can_id data expected_response k s (some m) post (by simpa using hb)]
      simp [outcome_matches, hm]
  | cons r pre ih =>
      intro n s m post hb hpre hm hn
      obtain ⟨k, rfl⟩ : ∃ k, n = k + 1 := ⟨n - 1, by simp at hn; omega⟩
      have hr : outcome_matches expected_response r = false := hpre r (by simp)
      rw [retry_loop_succ_cons can_id data expected_response k s r (pre ++ some m :: post)
        (by simpa using hb)]
      simp only [hr, Bool.false_eq_true, if_false]
      rw [ih k _ m post rfl (fun x hx => hpre x (by simp [hx])) hm (by simp at hn; omega)]
      simp [List.append_assoc]

/-! ## The command session: retry bound and early success -/

/-- C1 (retry bound): on a transport where every receive times out,
`send_command_with_retry` with `max_retries = n` returns false, and what it did
is exactly `n` attempts, each one publication of the frame into the slot, one
receive call (timing out) and the delay: never more and never fewer. -/
theorem C1_retry_bound (can_id : Nat) (data expected_response : List Nat) (n : Nat) (s : State)
    (htimeout : ∀ r ∈ s.bus, r = none) :
    (send_command_with_retry can_id data expected_response (n : Int) s).1 = false ∧
    (send_command_with_retry can_id data expected_response (n : Int) s).2.trace =
      s.trace ++ (List.replicate n
        [Event.publish can_id (data.take 8), Event.receive 500 none, Event.delay 300]).flatten := by
  have h := retry_loop_all_timeout can_id data expected_response n s htimeout
  simpa [send_command_with_retry, failed_attempt] using h

/-- C1 at the mode command with five retries on a silent bus. -/
theorem C1_retry_bound_witness :
    (∀ r ∈ (initial [none, none]).bus, r = none) ∧
    (send_command_with_retry 0x06180F81 (get_mode_cmd 0) (get_mode_response 0) (5 : Nat)
        (initial [none, none])).1 = false ∧
    (send_command_with_retry 0x06180F81 (get_mode_cmd 0) (get_mode_response 0) (5 : Nat)
        (initial [none, none])).2.trace =
      (initial [none, none]).trace ++ (List.replicate 5
        [Event.publish 0x06180F81 ((get_mode_cmd 0).take 8), Event.receive 500 none,
         Event.delay 300]).flatten :=
  ⟨by decide,
   C1_retry_bound 0x06180F81 (get_mode_cmd 0) (get_mode_response 0) 5 (initial [none, none])
     (by decide)⟩

/-- C2 (early success): if the receives of attempts `1 .. k-1` (the list `pre`)
time out or deliver frames that are not accepted, the receive of attempt `k`
delivers an accepted frame and `k ≤ max_retries`, then the session returns true
right after attempt `k`: it consumed exactly those `k` receive outcomes, its
events are the `k-1` failed attempts followed by one publication and the
successful receive, and the slot holds the session's frame. -/
theorem C2_early_success (can_id : Nat) (data expected_response : List Nat) (max_retries : Nat)
    (s : State) (pre : List (Option twai_message_t)) (m : twai_message_t)
    (post : List (Option twai_message_t))
    (hbus : s.bus = pre ++ some m :: post)
    (hpre : ∀ r ∈ pre, outcome_matches expected_response r = false)
    (hm : response_matches m expected_response = true)
    (hk : pre.length + 1 ≤ max_retries) :
    (send_command_with_retry can_id data expected_response (max_retries : Int) s).1 = true ∧
    (send_command_with_retry can_id data expected_response (max_retries : Int) s).2.bus = post ∧
    (send_command_with_retry can_id data expected_response (max_retries : Int) s).2.trace =
      s.trace ++ ((pre.map (fun r =>
          [Event.publish can_id (data.take 8), Event.receive 500 r, Event.delay 300])).flatten ++
        [Event.publish can_id (data.take 8), Event.receive 500 (some m)]) ∧
    (send_command_with_retry can_id data expected_response (max_retries : Int) s).2.last_cmd =
      { identifier := can_id, data_length_code := 8, flags := TWAI_MSG_FLAG_EXTD,
        data := data.take 8 } ∧
    (send_command_with_retry can_id data expected_response (max_retries : Int) s).2.has_cmd
      = true := by
  have h := retry_loop_first_match can_id data expected_response pre max_retries s m post
    hbus hpre hm (by omega)
  have hf : failed_attempt can_id data = fun r =>
      [Event.publish can_id (data.take 8), Event.receive 500 r, Event.delay 300] := rfl
  simp [send_command_with_retry, h, command_frame, hf]

/-- C2 at the mode-set session of five retries whose response arrives on attempt 3:
success, three receives, no fourth attempt, the slot holds the mode command. -/
theorem C2_early_success_witness :
    (send_command_with_retry 0x06180F81 (get_mode_cmd 1) (get_mode_response 1) (5 : Nat)
      (initial [none, none, some ⟨0x061F8008, 8, 1, get_mode_response 1⟩, none])).1 = true ∧
    (send_command_with_retry 0x06180F81 (get_mode_cmd 1) (get_mode_response 1) (5 : Nat)
      (initial [none, none, some ⟨0x061F8008, 8, 1, get_mode_response 1⟩, none])).2.bus
      = [none] ∧
    (send_command_with_retry 0x06180F81 (get_mode_cmd 1) (get_mode_response 1) (5 : Nat)
      (initial [none, none, some ⟨0x061F8008, 8, 1, get_mode_response 1⟩, none])).2.trace =
      (initial [none, none, some ⟨0x061F8008, 8, 1, get_mode_response 1⟩, none]).trace ++
      (([none, none].map (fun r =>
          [Event.publish 0x06180F81 ((get_mode_cmd 1).take 8), Event.receive 500 r,
           Event.delay 300])).flatten ++
        [Event.publish 0x06180F81 ((get_mode_cmd 1).take 8),
         Event.receive 500 (some ⟨0x061F8008, 8, 1, get_mode_response 1⟩)]) ∧
    (send_command_with_retry 0x06180F81 (get_mode_cmd 1) (get_mode_response 1) (5 : Nat)
      (initial [none, none, some ⟨0x061F8008, 8, 1, get_mode_response 1⟩, none])).2.last_cmd =
      { identifier := 0x06180F81, data_length_code := 8, flags := TWAI_MSG_FLAG_EXTD,
        data := (get_mode_cmd 1).take 8 } ∧
    (send_command_with_retry 0x06180F81 (get_mode_cmd 1) (get_mode_response 1) (5 : Nat)
      (initial [none, none, some ⟨0x061F8008, 8, 1, get_mode_response 1⟩, none])).2.has_cmd
      = true :=
  C2_early_success 0x06180F81 (get_mode_cmd 1) (get_mode_response 1) 5
    (initial [none, none, some ⟨0x061F8008, 8, 1, get_mode_response 1⟩, none])
    [none, none] ⟨0x061F8008, 8, 1, get_mode_response 1⟩ [none]
    (by decide) (by decide) (by decide) (by decide)

/-! ## The acceptance test -/

theorem memcmp_eq_zero_iff : ∀ (n : Nat) (a b : List Nat), n ≤ a.length → n ≤ b.length →
    (memcmp a b n = 0 ↔ a.take n = b.take n) := by
  intro n
  induction n with
  | zero => intro a b _ _; cases a <;> cases b <;> simp [memcmp]
  | succ n ih =>
      intro a b ha hb
      cases a with
      | nil => simp at ha
      | cons x as =>
        cases b with
        | nil => simp at hb
        | cons y bs =>
          have ha1 : n ≤ as.length := by simpa using ha
          have hb1 : n ≤ bs.length := by simpa using hb
          by_cases hxy : x = y
          · simp [memcmp, hxy, ih as bs ha1 hb1]
          · have : (x : Int) - (y : Int) ≠ 0 := by omega
            simp [memcmp, hxy, this]

/-- What `check_response` returns, for a pattern of at least four bytes and a
bus whose frames carry the driver's eight data bytes. -/
theorem check_response_true_iff ( expected_prefix : List Nat) (t : Nat) (s : State)
    (hexp : 4 ≤ expected_prefix.length)
    (hwf : ∀ m, some m ∈ s.bus → m.data.length = 8) :
    (check_response expected_prefix t s).1 = true ↔
      ∃ m rest, s.bus = some m :: rest ∧ m.identifier &&& 0x1FFFFFFF = 0x061F8008 ∧
        m.data.take 4 = expected_prefix.take 4 := by
  rcases hb : s.bus with _ | ⟨r, rest⟩
  · simp [check_response_nil expected_prefix t s hb]
  · rw [check_response_cons expected_prefix t s r rest hb]
    cases r with
    | none => simp [outcome_matches]
    | some m =>
        have hlen : m.data.length = 8 := hwf m (by simp [hb])
        have hmem := memcmp_eq_zero_iff 4 m.data expected_prefix (by omega) hexp
        simp [outcome_matches, response_matches, hmem]

/-- C3, the claim refuted: the mode-set session for mode 0 expects the 8-byte
pattern `get_mode_response 0`; a frame with the response identifier carrying
`get_mode_response 2`, which differs from it in byte 7, makes `check_response`
return true although the eight payload bytes are not those expected. -/
theorem C3_full_match_counterexample :
    ¬ ((check_response (get_mode_response 0) 500
          (initial [some ⟨0x061F8008, 8, 1, get_mode_response 2⟩])).1 = true ↔
        ∃ m rest, (initial [some ⟨0x061F8008, 8, 1, get_mode_response 2⟩]).bus = some m :: rest ∧
          m.identifier &&& 0x1FFFFFFF = 0x061F8008 ∧
          m.data.take 8 = (get_mode_response 0).take 8) := by
  intro h
  obtain ⟨m, rest, hb, _, hd⟩ := h.mp (by decide)
  simp only [initial, List.cons.injEq, Option.some.injEq] at hb
  obtain ⟨rfl, _⟩ := hb
  revert hd
  decide

/-- C3, amended: for an 8-byte expected response `check_response` returns true
if and only if a frame is received within the window, its identifier masked
with `0x1FFFFFFF` equals `0x061F8008`, and the first four bytes of its payload
equal the first four bytes of the expected response; bytes 4 to 7 are not
compared. -/
theorem C3_prefix_match (expected_response : List Nat) (timeout_ms : Nat) (s : State)
    (hexp : expected_response.length = 8)
    (hwf : ∀ m, some m ∈ s.bus → m.data.length = 8) :
    (check_response expected_response timeout_ms s).1 = true ↔
      ∃ m rest, s.bus = some m :: rest ∧ m.identifier &&& 0x1FFFFFFF = 0x061F8008 ∧
        m.data.take 4 = expected_response.take 4 :=
  check_response_true_iff expected_response timeout_ms s (by omega) hwf

/-- C3 amended, at the power-on session answered by the power-off acknowledgment. -/
theorem C3_prefix_match_witness :
    power_on_resp.length = 8 ∧
    (∀ m, some m ∈ (initial [some ⟨0x061F8008, 8, 1, power_off_resp⟩]).bus → m.data.length = 8) ∧
    ((check_response power_on_resp 500 (initial [some ⟨0x061F8008, 8, 1, power_off_resp⟩])).1
        = true ↔
      ∃ m rest, (initial [some ⟨0x061F8008, 8, 1, power_off_resp⟩]).bus = some m :: rest ∧
        m.identifier &&& 0x1FFFFFFF = 0x061F8008 ∧
        m.data.take 4 = power_on_resp.take 4) :=
  have hwf : ∀ m, some m ∈ (initial [some ⟨0x061F8008, 8, 1, power_off_resp⟩]).bus →
      m.data.length = 8 := by
    intro m hm
    simp only [initial, List.mem_singleton, Option.some.injEq] at hm
    subst hm
    decide
  ⟨by decide, hwf,
   C3_prefix_match power_on_resp 500 (initial [some ⟨0x061F8008, 8, 1, power_off_resp⟩])
     (by decide) hwf⟩

/-! ## Transmission and the suppression flag -/

/-- The retry loop never calls `twai_transmit`. -/
theorem retry_loop_transmit_count (can_id : Nat) (data expected_response : List Nat) (n : Nat) :
    ∀ s : State,
      transmit_count (retry_loop can_id data expected_response n s).2.trace =
        transmit_count s.trace := by
  induction n with
  | zero => intro s; simp [retry_loop]
  | succ n ih =>
      intro s
      rcases hb : s.bus with _ | ⟨r, rest⟩
      · rw [retry_loop_succ_nil can_id data expected_response n s hb, ih]
        simp [transmit_count, failed_attempt, is_transmit]
      · rw [retry_loop_succ_cons can_id data expected_response n s r rest hb]
        cases outcome_matches expected_response r
        · simp only [Bool.false_eq_true, if_false]
          rw [ih]
          simp [transmit_count, failed_attempt, is_transmit]
        · simp [transmit_count, is_transmit]

/-- C4, the code evaluated: on a silent bus the mode-set session of `handleSetMode`
runs five attempts (five publications, five receives) and calls `twai_transmit`
not once; the only events are publications, receives and delays. -/
theorem C4_session_does_not_transmit :
    (send_command_with_retry 0x06180F81 (get_mode_cmd 0) (get_mode_response 0) 5
        (initial [])).2.trace =
      (List.replicate 5
        [Event.publish 0x06180F81 (get_mode_cmd 0), Event.receive 500 none,
         Event.delay 300]).flatten ∧
    transmit_count
      (send_command_with_retry 0x06180F81 (get_mode_cmd 0) (get_mode_response 0) 5
        (initial [])).2.trace = 0 := by
  decide

/-- The flag after a run of the retry loop: set, as soon as one turn ran. -/
theorem retry_loop_repeat_enabled (can_id : Nat) (data expected_response : List Nat) (n : Nat) :
    ∀ s : State, (1 ≤ n ∨ s.repeat_enabled = true) →
      (retry_loop can_id data expected_response n s).2.repeat_enabled = true := by
  induction n with
  | zero => intro s h; rcases h with h | h; · omega
            simpa [retry_loop] using h
  | succ n ih =>
      intro s _
      rcases hb : s.bus with _ | ⟨r, rest⟩
      · rw [retry_loop_succ_nil can_id data expected_response n s hb]
        exact ih _ (Or.inr rfl)
      · rw [retry_loop_succ_cons can_id data expected_response n s r rest hb]
        cases outcome_matches expected_response r
        · simp only [Bool.false_eq_true, if_false]
          exact ih _ (Or.inr rfl)
        · simp

/-- C5 (suppression flag restored): whatever the pattern, the flag on entry and
the outcome of the receive, `repeat_enabled` is true when `check_response`
returns; and it is true when `send_command_with_retry` returns, for every
`max_retries ≥ 1`, whether the session succeeded or was exhausted. -/
theorem C5_flag_restored (can_id : Nat) (data expected_response : List Nat) (timeout_ms : Nat)
    (max_retries : Int) (s : State) (hretries : 1 ≤ max_retries) :
    (check_response expected_response timeout_ms s).2.repeat_enabled = true ∧
    (send_command_with_retry can_id data expected_response max_retries s).2.repeat_enabled
      = true := by
  refine ⟨by simp [check_response], ?_⟩
  exact retry_loop_repeat_enabled can_id data expected_response max_retries.toNat s
    (Or.inl (by omega))

/-- C5 at a session that enters with the flag cleared and is exhausted after one attempt. -/
theorem C5_flag_restored_witness :
    (1 : Int) ≤ 1 ∧
    (check_response power_on_resp 500
        { initial [none] with repeat_enabled := false }).2.repeat_enabled = true ∧
    (send_command_with_retry 0x06180F81 power_on_cmd power_on_resp 1
        { initial [none] with repeat_enabled := false }).2.repeat_enabled = true :=
  ⟨by decide,
   C5_flag_restored 0x06180F81 power_on_cmd power_on_resp 500 1
     { initial [none] with repeat_enabled := false } (by decide)⟩

/-! ## Session-driven wizard transitions -/

/-- The retry loop writes neither the step, nor the selected mode, nor the phase
payload, nor the power flag. -/
theorem retry_loop_frame (can_id : Nat) (data expected_response : List Nat) (n : Nat) :
    ∀ s : State,
      (retry_loop can_id data expected_response n s).2.step = s.step ∧
      (retry_loop can_id data expected_response n s).2.selected_mode = s.selected_mode ∧
      (retry_loop can_id data expected_response n s).2.phase_cmd = s.phase_cmd ∧
      (retry_loop can_id data expected_response n s).2.power_on = s.power_on := by
  induction n with
  | zero => intro s; simp [retry_loop]
  | succ n ih =>
      intro s
      rcases hb : s.bus with _ | ⟨r, rest⟩
      · rw [retry_loop_succ_nil can_id data expected_response n s hb]
        exact ih _
      · rw [retry_loop_succ_cons can_id data expected_response n s r rest hb]
        cases outcome_matches expected_response r
        · simp only [Bool.false_eq_true, if_false]
          exact ih _
        · simp

/-- C6 (session-driven transitions): `handleSetMode` moves the step from SetMode
to InputPhase if its command session succeeds and leaves it at SetMode if the
session is exhausted; `handleSetPhase` moves it from SetPhase to PowerControl on
success and leaves it at SetPhase on exhaustion; in all four cases
`selected_mode` and the phase payload are unchanged. -/
theorem C6_session_driven_transitions (s : State) :
    (s.step = Step.STEP_SET_MODE →
      ((send_command_with_retry 0x06180F81 (get_mode_cmd s.selected_mode)
          (get_mode_response s.selected_mode) 5 s).1 = true →
        (handleSetMode s).step = Step.STEP_INPUT_PHASE) ∧
      ((send_command_with_retry 0x06180F81 (get_mode_cmd s.selected_mode)
          (get_mode_response s.selected_mode) 5 s).1 = false →
        (handleSetMode s).step = Step.STEP_SET_MODE)) ∧
    (s.step = Step.STEP_SET_PHASE →
      ((send_command_with_retry 0x06180F81 s.phase_cmd phase_cmd_resp 5 s).1 = true →
        (handleSetPhase s).step = Step.STEP_POWER_CTRL) ∧
      ((send_command_with_retry 0x06180F81 s.phase_cmd phase_cmd_resp 5 s).1 = false →
        (handleSetPhase s).step = Step.STEP_SET_PHASE)) ∧
    (handleSetMode s).selected_mode = s.selected_mode ∧
    (handleSetMode s).phase_cmd = s.phase_cmd ∧
    (handleSetPhase s).selected_mode = s.selected_mode ∧
    (handleSetPhase s).phase_cmd = s.phase_cmd := by
  have hm := retry_loop_frame 0x06180F81 (get_mode_cmd s.selected_mode)
    (get_mode_response s.selected_mode) (5 : Int).toNat s
  have hp := retry_loop_frame 0x06180F81 s.phase_cmd phase_cmd_resp (5 : Int).toNat s
  obtain ⟨hm1, hm2, hm3, -⟩ := hm
  obtain ⟨hp1, hp2, hp3, -⟩ := hp
  refine ⟨fun hs => ⟨fun h => ?_, fun h => ?_⟩, fun hs => ⟨fun h => ?_, fun h => ?_⟩,
    ?_, ?_, ?_, ?_⟩
  · simp [handleSetMode, h]
  · simp only [handleSetMode, h, Bool.false_eq_true, if_false]
    exact hm1.trans hs
  · simp [handleSetPhase, h]
  · simp only [handleSetPhase, h, Bool.false_eq_true, if_false]
    exact hp1.trans hs
  · simp only [handleSetMode]
    split_ifs
    · exact hm2
    · exact hm2
  · simp only [handleSetMode]
    split_ifs
    · exact hm3
    · exact hm3
  · simp only [handleSetPhase]
    split_ifs
    · exact hp2
    · exact hp2
  · simp only [handleSetPhase]
    split_ifs
    · exact hp3
    · exact hp3

/-- C6 at four runs: mode set acknowledged, mode set on a silent bus, phase set
acknowledged, phase set on a silent bus. -/
theorem C6_session_driven_transitions_witness :
    (handleSetMode { initial [some ⟨0x061F8008, 8, 1, get_mode_response 0⟩] with
        step := Step.STEP_SET_MODE }).step = Step.STEP_INPUT_PHASE ∧
    (handleSetMode { initial [] with step := Step.STEP_SET_MODE }).step = Step.STEP_SET_MODE ∧
    (handleSetPhase { initial [some ⟨0x061F8008, 8, 1, [0x42, 0xF0, 0x00, 0x84, 0, 0, 0, 0]⟩] with
        step := Step.STEP_SET_PHASE }).step = Step.STEP_POWER_CTRL ∧
    (handleSetPhase { initial [] with step := Step.STEP_SET_PHASE }).step
      = Step.STEP_SET_PHASE :=
  ⟨((C6_session_driven_transitions
        { initial [some ⟨0x061F8008, 8, 1, get_mode_response 0⟩] with
          step := Step.STEP_SET_MODE }).1 (by decide)).1 (by decide),
   ((C6_session_driven_transitions
        { initial [] with step := Step.STEP_SET_MODE }).1 (by decide)).2 (by decide),
   ((C6_session_driven_transitions
        { initial [some ⟨0x061F8008, 8, 1, [0x42, 0xF0, 0x00, 0x84, 0, 0, 0, 0]⟩] with
          step := Step.STEP_SET_PHASE }).2.1 (by decide)).1 (by decide),
   ((C6_session_driven_transitions
        { initial [] with step := Step.STEP_SET_PHASE }).2.1 (by decide)).2 (by decide)⟩

/-- C7 (PowerOn sub-sequence): starting in step PowerOn, `handlePowerOnOff` ends
in step SelectMode if and only if the power-on session succeeds, the operator's
line is "off" after trimming, and the power-off session (run next, with the
power flag cleared) succeeds; if the power-on session is exhausted, or the line
is not "off", or the power-off session is exhausted, the step remains PowerOn. -/
theorem C7_power_on_sequence (line : String) (s : State) (hstep : s.step = Step.STEP_POWER_ON) :
    ((handlePowerOnOff line s).step = Step.STEP_SELECT_MODE ↔
      ((send_command_with_retry 0x06180F81 power_on_cmd power_on_resp 5 s).1 = true ∧
       trim line = "off" ∧
       (send_command_with_retry 0x06180F81 power_off_cmd power_off_resp 5
          { (send_command_with_retry 0x06180F81 power_on_cmd power_on_resp 5 s).2 with
            power_on := false }).1 = true)) ∧
    (((send_command_with_retry 0x06180F81 power_on_cmd power_on_resp 5 s).1 = false ∨
      trim line ≠ "off" ∨
      (send_command_with_retry 0x06180F81 power_off_cmd power_off_resp 5
          { (send_command_with_retry 0x06180F81 power_on_cmd power_on_resp 5 s).2 with
            power_on := false }).1 = false) →
      (handlePowerOnOff line s).step = Step.STEP_POWER_ON) := by
  have h1 : (send_command_with_retry 0x06180F81 power_on_cmd power_on_resp 5 s).2.step
      = Step.STEP_POWER_ON :=
    (retry_loop_frame 0x06180F81 power_on_cmd power_on_resp (5 : Int).toNat s).1.trans hstep
  have h2 : (send_command_with_retry 0x06180F81 power_off_cmd power_off_resp 5
          { (send_command_with_retry 0x06180F81 power_on_cmd power_on_resp 5 s).2 with
            power_on := false }).2.step = Step.STEP_POWER_ON :=
    (retry_loop_frame 0x06180F81 power_off_cmd power_off_resp (5 : Int).toNat _).1.trans h1
  unfold handlePowerOnOff
  by_cases hon : (send_command_with_retry 0x06180F81 power_on_cmd power_on_resp 5 s).1 = true
  · by_cases hline : trim line = "off"
    · by_cases hoff : (send_command_with_retry 0x06180F81 power_off_cmd power_off_resp 5
          { (send_command_with_retry 0x06180F81 power_on_cmd power_on_resp 5 s).2 with
            power_on := false }).1 = true
      · simp [hon, hline, hoff]
      · simp [hon, hline, hoff, h2]
    · simp [hon, hline, h1]
  · simp [hon, h1]

/-- C7 at three runs from step PowerOn: both sessions acknowledged and the line
" off" followed by a line end; five receive timeouts of the power-on session;
power-on acknowledged but the line "of". -/
theorem C7_power_on_sequence_witness :
    (handlePowerOnOff " off\n"
      { initial [some ⟨0x061F8008, 8, 1, power_on_resp⟩, none,
                 some ⟨0x061F8008, 8, 1, power_off_resp⟩] with
        step := Step.STEP_POWER_ON }).step = Step.STEP_SELECT_MODE ∧
    (handlePowerOnOff "off"
      { initial [none, none, none, none, none] with
        step := Step.STEP_POWER_ON }).step = Step.STEP_POWER_ON ∧
    (handlePowerOnOff "of"
      { initial [some ⟨0x061F8008, 8, 1, power_on_resp⟩] with
        step := Step.STEP_POWER_ON }).step = Step.STEP_POWER_ON :=
  ⟨(C7_power_on_sequence " off\n"
      { initial [some ⟨0x061F8008, 8, 1, power_on_resp⟩, none,
                 some ⟨0x061F8008, 8, 1, power_off_resp⟩] with
        step := Step.STEP_POWER_ON } (by decide)).1.mpr (by decide),
   (C7_power_on_sequence "off"
      { initial [none, none, none, none, none] with
        step := Step.STEP_POWER_ON } (by decide)).2 (Or.inl (by decide)),
   (C7_power_on_sequence "of"
      { initial [some ⟨0x061F8008, 8, 1, power_on_resp⟩] with
        step := Step.STEP_POWER_ON } (by decide)).2 (Or.inr (Or.inl (by decide)))⟩

/-! ## Single-precision arithmetic -/

theorem float.toRat_scale (x : float) (c : Int) (h : c ≤ x.e) :
    ((x.m * 2 ^ (x.e - c).toNat : Int) : ℚ) = x.toRat * (2 : ℚ) ^ (-c) := by
  unfold float.toRat
  have hn : (((x.e - c).toNat : Nat) : Int) = x.e - c := Int.toNat_of_nonneg (by omega)
  push_cast
  rw [mul_assoc, ← zpow_add₀ (by norm_num : (2 : ℚ) ≠ 0), ← zpow_natCast, hn]
  congr 2

/-- The comparison of the model is the comparison of the numbers. -/
theorem float.lt_iff (a b : float) : float.lt a b = true ↔ a.toRat < b.toRat := by
  unfold float.lt
  simp only [decide_eq_true_eq]
  rw [← Int.cast_lt (R := ℚ), float.toRat_scale a _ (min_le_left _ _),
    float.toRat_scale b _ (min_le_right _ _)]
  exact mul_lt_mul_right (zpow_pos (by norm_num) _)

theorem float.toRat_nonneg_iff (x : float) : 0 ≤ x.toRat ↔ 0 ≤ x.m := by
  unfold float.toRat
  have h2 : (0 : ℚ) < (2 : ℚ) ^ x.e := zpow_pos (by norm_num) _
  constructor
  · intro h
    by_contra hneg
    have : (x.m : ℚ) < 0 := by exact_mod_cast (not_le.mp hneg)
    nlinarith
  · intro h
    have : (0 : ℚ) ≤ (x.m : ℚ) := by exact_mod_cast h
    positivity

/-- For a value that is not negative, dropping the fraction is taking the floor. -/
theorem float.trunc_eq_floor (x : float) (h : 0 ≤ x.m) : x.trunc = ⌊x.toRat⌋ := by
  unfold float.trunc float.toRat
  split_ifs with he
  · have hn : ((x.e.toNat : Nat) : Int) = x.e := Int.toNat_of_nonneg he
    have : (x.m : ℚ) * (2 : ℚ) ^ x.e = ((x.m * 2 ^ x.e.toNat : Int) : ℚ) := by
      push_cast
      rw [← zpow_natCast, hn]
    rw [this, Int.floor_intCast]
  · have hn : (((-x.e).toNat : Nat) : Int) = -x.e := Int.toNat_of_nonneg (by omega)
    have hx : (x.m : ℚ) * (2 : ℚ) ^ x.e = (x.m : ℚ) / ((2 ^ (-x.e).toNat : Nat) : ℚ) := by
      push_cast
      rw [← zpow_natCast, hn, zpow_neg, div_eq_mul_inv, inv_inv]
    rw [hx, Rat.floor_intCast_div_natCast, Int.tdiv_eq_ediv h (by positivity)]
    push_cast
    rfl

theorem bitlen_aux_lower : ∀ (fuel n : Nat), 0 < bitlen_aux fuel n →
    2 ^ (bitlen_aux fuel n - 1) ≤ n := by
  intro fuel
  induction fuel with
  | zero => intro n h; simp [bitlen_aux] at h
  | succ f ih =>
      intro n h
      by_cases hn : n = 0
      · simp [bitlen_aux, hn] at h
      · simp only [bitlen_aux, hn, if_false, Nat.add_sub_cancel]
        by_cases hb : bitlen_aux f (n / 2) = 0
        · rw [hb]; simp; omega
        · have h1 := ih (n / 2) (Nat.pos_of_ne_zero hb)
          have h2 : 2 ^ bitlen_aux f (n / 2) = 2 * 2 ^ (bitlen_aux f (n / 2) - 1) := by
            rw [← pow_succ']
            congr 1
            omega
          rw [h2]
          omega

theorem bitlen_aux_upper : ∀ (fuel n : Nat), n ≤ fuel → n < 2 ^ bitlen_aux fuel n := by
  intro fuel
  induction fuel with
  | zero => intro n h; simp [bitlen_aux]; omega
  | succ f ih =>
      intro n h
      by_cases hn : n = 0
      · simp [bitlen_aux, hn]
      · simp only [bitlen_aux, hn, if_false]
        have h1 := ih (n / 2) (by omega)
        rw [pow_succ]
        omega

/-- The halving budget of `bitlen` is enough: `bitlen n` is the number of
binary digits of `n`. -/
theorem bitlen_spec (n : Nat) : n < 2 ^ bitlen n ∧ (0 < bitlen n → 2 ^ (bitlen n - 1) ≤ n) :=
  ⟨bitlen_aux_upper n n le_rfl, bitlen_aux_lower n n⟩

theorem roundShift_zero (n : Nat) : roundShift n 0 = n := by
  simp [roundShift, Nat.mod_one]

/-- The rounded quotient is within half a unit of the exact quotient. -/
theorem roundShift_near (n k : Nat) :
    2 * (roundShift n k * 2 ^ k) ≤ 2 * n + 2 ^ k ∧ 2 * n ≤ 2 * (roundShift n k * 2 ^ k) + 2 ^ k := by
  have hdm : 2 ^ k * (n / 2 ^ k) + n % 2 ^ k = n := Nat.div_add_mod n (2 ^ k)
  have hr : n % 2 ^ k < 2 ^ k := Nat.mod_lt _ (by positivity)
  unfold roundShift
  simp only
  generalize n / 2 ^ k = q at hdm
  generalize n % 2 ^ k = r at hdm hr
  generalize 2 ^ k = P at hdm hr
  subst hdm
  split_ifs with h1 h2
  · constructor <;> nlinarith
  · constructor <;> nlinarith
  · have h3 : 2 * r = P := by omega
    rcases Nat.mod_two_eq_zero_or_one q with h | h <;> rw [h] <;> constructor <;> nlinarith

theorem round32_m_nonneg (x : float) (h : 0 ≤ x.m) : 0 ≤ (round32 x).m := by
  simp only [round32]
  exact mul_nonneg (Int.sign_nonneg.mpr h) (Int.ofNat_nonneg _)

/-- A crude bound on binary32 rounding, enough to exclude 16-bit overflow. -/
theorem round32_le (x : float) (h : 0 ≤ x.m) : (round32 x).toRat ≤ 2 * x.toRat + 1 := by
  rcases h.eq_or_lt with h0 | hpos
  · have hm : x.m = 0 := h0.symm
    simp [round32, float.toRat, hm]
  · have hx : (0 : ℚ) ≤ x.toRat := (float.toRat_nonneg_iff x).2 h
    obtain ⟨n, hn⟩ : ∃ n : Nat, x.m = n := ⟨x.m.toNat, (Int.toNat_of_nonneg h).symm⟩
    have hnpos : 0 < n := by omega
    have hsign : x.m.sign = 1 := Int.sign_eq_one_of_pos hpos
    have habs : x.m.natAbs = n := by simp [hn]
    have h2e : (0 : ℚ) < (2 : ℚ) ^ x.e := zpow_pos (by norm_num) _
    have hxval : x.toRat = (n : ℚ) * (2 : ℚ) ^ x.e := by simp [float.toRat, hn]
    obtain ⟨k, hk⟩ : ∃ k, max (bitlen n - 24) (-149 - x.e).toNat = k := ⟨_, rfl⟩
    have hval : (round32 x).toRat = ((roundShift n k * 2 ^ k : Nat) : ℚ) * (2 : ℚ) ^ x.e := by
      simp only [round32, float.toRat, hsign, habs, one_mul, hk]
      push_cast
      rw [zpow_add₀ (by norm_num : (2 : ℚ) ≠ 0), zpow_natCast]
      ring
    have hnearQ : (2 : ℚ) * ((roundShift n k * 2 ^ k : Nat) : ℚ) ≤ 2 * n + 2 ^ k := by
      exact_mod_cast (roundShift_near n k).1
    have hq : (2 : ℚ) ^ k * (2 : ℚ) ^ x.e ≤ x.toRat + 1 := by
      rcases lt_or_le (bitlen n - 24) (-149 - x.e).toNat with hab | hba
      · have hkb : k = (-149 - x.e).toNat := by rw [← hk]; exact max_eq_right hab.le
        have hpos149 : 0 < -149 - x.e := by
          by_contra hneg
          have : (-149 - x.e).toNat = 0 := Int.toNat_eq_zero.mpr (by omega)
          omega
        have hkz : ((k : Nat) : Int) = -149 - x.e := by
          rw [hkb]; exact Int.toNat_of_nonneg hpos149.le
        have hpow : (2 : ℚ) ^ k * (2 : ℚ) ^ x.e = (2 : ℚ) ^ (-149 : Int) := by
          rw [← zpow_natCast, ← zpow_add₀ (by norm_num : (2 : ℚ) ≠ 0), hkz]
          congr 1
          ring
        have hsmall : (2 : ℚ) ^ (-149 : Int) ≤ 1 := by
          rw [zpow_neg]
          exact inv_le_one_of_one_le₀ (one_le_zpow₀ (by norm_num) (by norm_num))
        rw [hpow]
        linarith
      · have hka : k = bitlen n - 24 := by rw [← hk]; exact max_eq_left hba
        have hbl := bitlen_spec n
        have hblpos : 0 < bitlen n := by
          by_contra hz
          have hz0 : bitlen n = 0 := by omega
          rw [hz0] at hbl
          have := hbl.1
          omega
        have h1 := hbl.2 hblpos
        have h2 : 2 ^ k ≤ 2 ^ (bitlen n - 1) := Nat.pow_le_pow_right (by norm_num) (by omega)
        have h3 : (2 : ℚ) ^ k ≤ (n : ℚ) := by exact_mod_cast h2.trans h1
        rw [hxval]
        nlinarith
    rw [hval]
    nlinarith

/-! ## The frame codec -/

theorem uint16_split (n : Nat) (h : n < 65536) :
    (n >>> 8) &&& 0xFF = n / 256 ∧ n &&& 0xFF = n % 256 := by
  have h1 : ∀ x : Nat, x &&& 0xFF = x % 256 := fun x => Nat.and_pow_two_sub_one_eq_mod x 8
  rw [h1, h1, Nat.shiftRight_eq_div_pow]
  constructor
  · norm_num
    omega
  · rfl

theorem to_uint16_lt (x : float) : to_uint16 x < 65536 := by
  unfold to_uint16
  have h1 := Int.emod_nonneg x.trunc (by norm_num : (65536 : Int) ≠ 0)
  have h2 := Int.emod_lt_of_pos x.trunc (by norm_num : (0 : Int) < 65536)
  omega

/-- The two bytes of `floatToHexBytes` are the quotient and the remainder by 256
of the converted product. -/
theorem floatToHexBytes_eq (value unit_scale : float) :
    floatToHexBytes value unit_scale =
      (to_uint16 (float.mul value unit_scale) / 256,
       to_uint16 (float.mul value unit_scale) % 256) := by
  have h := uint16_split _ (to_uint16_lt (float.mul value unit_scale))
  simp only [floatToHexBytes, h.1, h.2]

/-- For a voltage in `[0, 420]` the product with ten, as computed in single
precision, is not negative and converts to 16 bits without wrapping. -/
theorem to_uint16_mul_ten (v : float) (h0 : 0 ≤ v.toRat) (h420 : v.toRat ≤ 420) :
    ((to_uint16 (float.mul v { m := 10, e := 0 }) : Nat) : Int) =
      ⌊(float.mul v { m := 10, e := 0 }).toRat⌋ := by
  have hm : 0 ≤ v.m := (float.toRat_nonneg_iff v).1 h0
  have hxm : 0 ≤ v.m * 10 := by omega
  have hx : ({ m := v.m * 10, e := v.e + 0 } : float).toRat = v.toRat * 10 := by
    simp only [float.toRat, add_zero]
    push_cast
    ring
  have hle := round32_le { m := v.m * 10, e := v.e + 0 } hxm
  rw [hx] at hle
  have hnn := round32_m_nonneg { m := v.m * 10, e := v.e + 0 } hxm
  have hfl := float.trunc_eq_floor _ hnn
  have hmul : float.mul v { m := 10, e := 0 } = round32 { m := v.m * 10, e := v.e + 0 } := rfl
  rw [hmul]
  have hlo : 0 ≤ ⌊(round32 { m := v.m * 10, e := v.e + 0 }).toRat⌋ :=
    Int.floor_nonneg.mpr ((float.toRat_nonneg_iff _).2 hnn)
  have hhi : ⌊(round32 { m := v.m * 10, e := v.e + 0 }).toRat⌋ < 65536 := by
    rw [Int.floor_lt]
    push_cast
    linarith
  unfold to_uint16
  rw [hfl]
  omega

theorem float.lt_420_eq_false (v : float) (h420 : v.toRat ≤ 420) :
    float.lt { m := 420, e := 0 } v = false := by
  rw [Bool.eq_false_iff, Ne, float.lt_iff]
  have : ({ m := 420, e := 0 } : float).toRat = 420 := by simp [float.toRat]
  rw [this]
  exact not_lt.mpr h420

theorem float.lt_420_eq_true (v : float) (h420 : 420 < v.toRat) :
    float.lt { m := 420, e := 0 } v = true := by
  rw [float.lt_iff]
  have : ({ m := 420, e := 0 } : float).toRat = 420 := by simp [float.toRat]
  rw [this]
  exact h420

/-- C9, the claim refuted: 230.875 is a binary32 voltage in `[0, 420]`; ten
times it is 2308.75, whose nearest integer is 2309, and `floatToHexBytes`
produces 2308. -/
theorem C9_rounding_counterexample :
    float.is_binary32 { m := 1847, e := -3 } ∧
    ({ m := 1847, e := -3 } : float).toRat = 230.875 ∧
    round (({ m := 1847, e := -3 } : float).toRat * 10) = 2309 ∧
    (floatToHexBytes { m := 1847, e := -3 } { m := 10, e := 0 }).1 * 256 +
      (floatToHexBytes { m := 1847, e := -3 } { m := 10, e := 0 }).2 = 2308 ∧
    ((((floatToHexBytes { m := 1847, e := -3 } { m := 10, e := 0 }).1 * 256 +
      (floatToHexBytes { m := 1847, e := -3 } { m := 10, e := 0 }).2 : Nat) : Int) ≠
      round (({ m := 1847, e := -3 } : float).toRat * 10)) := by
  have hv : ({ m := 1847, e := -3 } : float).toRat = 230.875 := by
    norm_num [float.toRat, zpow_neg]
  have hr : round (({ m := 1847, e := -3 } : float).toRat * 10) = 2309 := by
    rw [hv, round_eq, Int.floor_eq_iff]
    norm_num
  have hcode : (floatToHexBytes { m := 1847, e := -3 } { m := 10, e := 0 }).1 * 256 +
      (floatToHexBytes { m := 1847, e := -3 } { m := 10, e := 0 }).2 = 2308 := by decide
  refine ⟨by unfold float.is_binary32; decide, hv, hr, hcode, ?_⟩
  rw [hr, hcode]
  decide

/-- C9, amended: `floatToHexBytes(value, scale)` drops the fraction of the
single-precision product and splits the result big-endian, so for every voltage
`v` in `[0, 420.0]` the 16-bit number `high * 256 + low` produced for `(v, 10.0)`
equals the integer part (the floor) of the computed product `v * 10`, and both
bytes are below 256. -/
theorem C9_truncates (v : float) (h0 : 0 ≤ v.toRat) (h420 : v.toRat ≤ 420) :
    ((((floatToHexBytes v { m := 10, e := 0 }).1 * 256 +
        (floatToHexBytes v { m := 10, e := 0 }).2 : Nat) : Int) =
      ⌊(float.mul v { m := 10, e := 0 }).toRat⌋) ∧
    (floatToHexBytes v { m := 10, e := 0 }).1 < 256 ∧
    (floatToHexBytes v { m := 10, e := 0 }).2 < 256 := by
  have hlt := to_uint16_lt (float.mul v { m := 10, e := 0 })
  rw [floatToHexBytes_eq]
  refine ⟨?_, by simp only; omega, by simp only; omega⟩
  rw [← to_uint16_mul_ten v h0 h420]
  simp only
  congr 1
  omega

/-- C9 amended, at the voltage 230.875. -/
theorem C9_truncates_witness :
    (0 : ℚ) ≤ ({ m := 1847, e := -3 } : float).toRat ∧
    ({ m := 1847, e := -3 } : float).toRat ≤ 420 ∧
    ((((floatToHexBytes { m := 1847, e := -3 } { m := 10, e := 0 }).1 * 256 +
        (floatToHexBytes { m := 1847, e := -3 } { m := 10, e := 0 }).2 : Nat) : Int) =
      ⌊(float.mul { m := 1847, e := -3 } { m := 10, e := 0 }).toRat⌋) :=
  ⟨by norm_num [float.toRat, zpow_neg], by norm_num [float.toRat, zpow_neg],
   (C9_truncates { m := 1847, e := -3 }
     (by norm_num [float.toRat, zpow_neg]) (by norm_num [float.toRat, zpow_neg])).1⟩

/-- C10 (voltage validation): a voltage above 420.0 is rejected locally, the
handler returns the state it was given, so the step (InputPhase when the
handler is entered from `loop`), the phase payload, the slot and the trace are
unchanged and nothing is sent; every voltage up to 420.0 moves the step to
SetPhase. -/
theorem C10_voltage_validation (v : float) (s : State) :
    (420 < v.toRat → handlePhaseVoltage v s = s) ∧
    (v.toRat ≤ 420 → (handlePhaseVoltage v s).step = Step.STEP_SET_PHASE) := by
  constructor
  · intro h
    simp [handlePhaseVoltage, float.lt_420_eq_true v h]
  · intro h
    simp [handlePhaseVoltage, float.lt_420_eq_false v h]

/-- C10 at the voltages 450.0 (rejected in step InputPhase) and 230.0 (accepted). -/
theorem C10_voltage_validation_witness :
    (handlePhaseVoltage { m := 450, e := 0 }
        { initial [] with step := Step.STEP_INPUT_PHASE } =
      { initial [] with step := Step.STEP_INPUT_PHASE }) ∧
    (handlePhaseVoltage { m := 230, e := 0 }
        { initial [] with step := Step.STEP_INPUT_PHASE }).step = Step.STEP_SET_PHASE :=
  ⟨(C10_voltage_validation { m := 450, e := 0 }
      { initial [] with step := Step.STEP_INPUT_PHASE }).1 (by norm_num [float.toRat]),
   (C10_voltage_validation { m := 230, e := 0 }
      { initial [] with step := Step.STEP_INPUT_PHASE }).2 (by norm_num [float.toRat])⟩

/-! ## Mode selection and the mode tables -/

/-- C11 (mode selection): for the characters '1', '2', '3' `handleModeSelection`
sets `selected_mode` to 0 (OnGrid), 1 (OffGrid), 2 (Rectifier) and sets the
step to SetMode; for every other character it leaves `selected_mode` and the
step as they were.  The mode command of OffGrid is
`[0x03, 0x00, 0x00, 0x2F, 0x00, 0x01, 0x00, 0x01]`. -/
theorem C11_mode_selection (ch : Char) (s : State) :
    ((handleModeSelection '1' s).selected_mode = 0 ∧
      (handleModeSelection '1' s).step = Step.STEP_SET_MODE) ∧
    ((handleModeSelection '2' s).selected_mode = 1 ∧
      (handleModeSelection '2' s).step = Step.STEP_SET_MODE) ∧
    ((handleModeSelection '3' s).selected_mode = 2 ∧
      (handleModeSelection '3' s).step = Step.STEP_SET_MODE) ∧
    (ch ≠ '1' → ch ≠ '2' → ch ≠ '3' →
      (handleModeSelection ch s).selected_mode = s.selected_mode ∧
      (handleModeSelection ch s).step = s.step) ∧
    get_mode_cmd (handleModeSelection '2' s).selected_mode =
      [0x03, 0x00, 0x00, 0x2F, 0x00, 0x01, 0x00, 0x01] := by
  refine ⟨by simp [handleModeSelection], by simp [handleModeSelection],
    by simp [handleModeSelection], ?_, ?_⟩
  · intro h1 h2 h3
    simp [handleModeSelection, h1, h2, h3]
  · have : (handleModeSelection '2' s).selected_mode = 1 := by simp [handleModeSelection]
    rw [this]
    decide

/-- C11 at the start-up state: '2' selects OffGrid and moves to SetMode, 'x' changes nothing
of the selection and the step. -/
theorem C11_mode_selection_witness :
    ((handleModeSelection '2' (initial [])).selected_mode = 1 ∧
      (handleModeSelection '2' (initial [])).step = Step.STEP_SET_MODE) ∧
    ((handleModeSelection 'x' (initial [])).selected_mode = (initial []).selected_mode ∧
      (handleModeSelection 'x' (initial [])).step = (initial []).step) :=
  ⟨(C11_mode_selection 'x' (initial [])).2.1,
   (C11_mode_selection 'x' (initial [])).2.2.2.1 (by decide) (by decide) (by decide)⟩

/-- C12 (mode table integrity): for each mode index `i` in 0, 1, 2 the response
and the command of the mode are eight bytes long, agree on bytes 2 to 7, start
with `0x42, 0xF0` (response) and `0x03, 0x00` (command), and carry `i` in byte 7. -/
theorem C12_mode_table_integrity (i : Nat) (hi : i < 3) :
    (get_mode_response i).length = 8 ∧ (get_mode_cmd i).length = 8 ∧
    (get_mode_response i).drop 2 = (get_mode_cmd i).drop 2 ∧
    (get_mode_response i).take 2 = [0x42, 0xF0] ∧
    (get_mode_cmd i).take 2 = [0x03, 0x00] ∧
    (get_mode_response i)[7]? = some i ∧
    (get_mode_cmd i)[7]? = some i := by
  have h : i = 0 ∨ i = 1 ∨ i = 2 := by omega
  rcases h with rfl | rfl | rfl <;> decide

/-- C12 at the Rectifier mode. -/
theorem C12_mode_table_integrity_witness :
    (2 < 3) ∧
    (get_mode_response 2).drop 2 = (get_mode_cmd 2).drop 2 ∧
    (get_mode_response 2)[7]? = some 2 ∧ (get_mode_cmd 2)[7]? = some 2 :=
  ⟨by decide, (C12_mode_table_integrity 2 (by decide)).2.2.1,
   (C12_mode_table_integrity 2 (by decide)).2.2.2.2.2.1,
   (C12_mode_table_integrity 2 (by decide)).2.2.2.2.2.2⟩

/-! ## The keep-alive repeater -/

/-- C13 (repeater guard): one turn of `repeat_command_task` calls `twai_transmit`
exactly once, on the frame in the slot with a 100 ms limit, if `has_cmd` and
`repeat_enabled` are both true, and does nothing otherwise; so with the flag
false a turn adds no event at all; and a turn never changes the slot, the flag
or the wizard step. -/
theorem C13_repeater_guard (s : State) :
    (s.has_cmd = true → s.repeat_enabled = true →
      (repeat_command_task s).trace = s.trace ++ [Event.transmit s.last_cmd 100]) ∧
    (¬ (s.has_cmd = true ∧ s.repeat_enabled = true) → repeat_command_task s = s) ∧
    (s.repeat_enabled = false →
      (repeat_command_task s).trace = s.trace ∧
      transmit_count (repeat_command_task s).trace = transmit_count s.trace) ∧
    (repeat_command_task s).last_cmd = s.last_cmd ∧
    (repeat_command_task s).has_cmd = s.has_cmd ∧
    (repeat_command_task s).repeat_enabled = s.repeat_enabled ∧
    (repeat_command_task s).step = s.step := by
  refine ⟨?_, ?_, ?_, ?_, ?_, ?_, ?_⟩
  · intro h1 h2
    simp [repeat_command_task, twai_transmit, h1, h2]
  · intro h
    have : (s.has_cmd && s.repeat_enabled) = false := by
      cases h1 : s.has_cmd <;> cases h2 : s.repeat_enabled <;> simp_all
    simp [repeat_command_task, this]
  · intro h
    simp [repeat_command_task, h]
  all_goals
    unfold repeat_command_task
    split_ifs <;> simp [twai_transmit]

/-- C13 at three states: slot occupied and flag set (one transmit), slot
occupied inside a suppression window (nothing), slot empty (nothing). -/
theorem C13_repeater_guard_witness :
    (repeat_command_task (send_command 0x06180F81 power_on_cmd (initial []))).trace =
      (send_command 0x06180F81 power_on_cmd (initial [])).trace ++
        [Event.transmit (send_command 0x06180F81 power_on_cmd (initial [])).last_cmd 100] ∧
    ((repeat_command_task
        { send_command 0x06180F81 power_on_cmd (initial []) with repeat_enabled := false }).trace =
      ({ send_command 0x06180F81 power_on_cmd (initial []) with
          repeat_enabled := false } : State).trace ∧
     transmit_count (repeat_command_task
        { send_command 0x06180F81 power_on_cmd (initial []) with repeat_enabled := false }).trace =
      transmit_count ({ send_command 0x06180F81 power_on_cmd (initial []) with
          repeat_enabled := false } : State).trace) ∧
    repeat_command_task (initial []) = initial [] :=
  ⟨(C13_repeater_guard (send_command 0x06180F81 power_on_cmd (initial []))).1
      (by decide) (by decide),
   (C13_repeater_guard
      { send_command 0x06180F81 power_on_cmd (initial []) with repeat_enabled := false }).2.2.1
      (by decide),
   (C13_repeater_guard (initial [])).2.1 (by decide)⟩

/-! ## The last-command slot -/

/-- The slot after a run of the retry loop: the session's frame, as soon as one
turn ran. -/
theorem retry_loop_slot (can_id : Nat) (data expected_response : List Nat) (n : Nat) :
    ∀ s : State,
      (1 ≤ n ∨ (s.last_cmd = command_frame can_id data ∧ s.has_cmd = true)) →
      (retry_loop can_id data expected_response n s).2.last_cmd = command_frame can_id data ∧
      (retry_loop can_id data expected_response n s).2.has_cmd = true := by
  induction n with
  | zero =>
      intro s h
      rcases h with h | h
      · omega
      · simpa [retry_loop] using h
  | succ n ih =>
      intro s _
      rcases hb : s.bus with _ | ⟨r, rest⟩
      · rw [retry_loop_succ_nil can_id data expected_response n s hb]
        exact ih _ (Or.inr ⟨rfl, rfl⟩)
      · rw [retry_loop_succ_cons can_id data expected_response n s r rest hb]
        cases outcome_matches expected_response r
        · simp only [Bool.false_eq_true, if_false]
          exact ih _ (Or.inr ⟨rfl, rfl⟩)
        · simp

/-- C14 (slot publication is latest-wins): `send_command(id, data)` leaves in the
slot exactly the identifier `id`, the first eight bytes of `data`, length 8 and
the extended flag, with `has_cmd` true, whatever the slot held before, so
publishing A then B leaves the slot that publishing B alone leaves; and after
`send_command_with_retry` with `max_retries ≥ 1` the slot holds the session's
frame, whether the session succeeded or was exhausted. -/
theorem C14_slot_publication (idA idB : Nat) (dataA dataB expected_response : List Nat)
    (max_retries : Int) (s : State) (hretries : 1 ≤ max_retries) :
    ((send_command idB dataB s).last_cmd =
        { identifier := idB, data_length_code := 8, flags := TWAI_MSG_FLAG_EXTD,
          data := dataB.take 8 } ∧
      (send_command idB dataB s).has_cmd = true) ∧
    ((send_command idB dataB (send_command idA dataA s)).last_cmd =
        (send_command idB dataB s).last_cmd ∧
      (send_command idB dataB (send_command idA dataA s)).has_cmd =
        (send_command idB dataB s).has_cmd) ∧
    ((send_command_with_retry idB dataB expected_response max_retries s).2.last_cmd =
        { identifier := idB, data_length_code := 8, flags := TWAI_MSG_FLAG_EXTD,
          data := dataB.take 8 } ∧
      (send_command_with_retry idB dataB expected_response max_retries s).2.has_cmd = true) := by
  refine ⟨by simp [send_command], by simp [send_command], ?_⟩
  exact retry_loop_slot idB dataB expected_response max_retries.toNat s (Or.inl (by omega))

/-- C14 at a slot that holds the mode command when the power-on session starts:
after one exhausted attempt, and after an acknowledged one, it holds the
power-on command. -/
theorem C14_slot_publication_witness :
    (1 : Int) ≤ 1 ∧
    (send_command_with_retry 0x06180F81 power_on_cmd power_on_resp 1
        (send_command 0x06180F81 (get_mode_cmd 0) (initial [none]))).2.last_cmd =
      { identifier := 0x06180F81, data_length_code := 8, flags := TWAI_MSG_FLAG_EXTD,
        data := power_on_cmd.take 8 } ∧
    (send_command_with_retry 0x06180F81 power_on_cmd power_on_resp 1
        (send_command 0x06180F81 (get_mode_cmd 0)
          (initial [some ⟨0x061F8008, 8, 1, power_on_resp⟩]))).2.last_cmd =
      { identifier := 0x06180F81, data_length_code := 8, flags := TWAI_MSG_FLAG_EXTD,
        data := power_on_cmd.take 8 } :=
  ⟨by decide,
   (C14_slot_publication 0 0x06180F81 [] power_on_cmd power_on_resp 1
      (send_command 0x06180F81 (get_mode_cmd 0) (initial [none])) (by decide)).2.2.1,
   (C14_slot_publication 0 0x06180F81 [] power_on_cmd power_on_resp 1
      (send_command 0x06180F81 (get_mode_cmd 0)
        (initial [some ⟨0x061F8008, 8, 1, power_on_resp⟩])) (by decide)).2.2.1⟩

/-! ## Who writes the suppression flag -/

/-- C15, the claim refuted: from the start-up state (flag true) the invalid
character 'x' makes `handleModeSelection` return with the flag false, and from
that state the valid character '1' makes it return with the flag true; neither
time is the flag what it was on entry. -/
theorem C15_mode_selection_writes_flag :
    (initial []).repeat_enabled = true ∧
    (handleModeSelection 'x' (initial [])).repeat_enabled = false ∧
    (handleModeSelection '1' (handleModeSelection 'x' (initial []))).repeat_enabled = true ∧
    ¬ (∀ (ch : Char) (s : State),
        (handleModeSelection ch s).repeat_enabled = s.repeat_enabled) := by
  refine ⟨by decide, by decide, by decide, ?_⟩
  intro h
  have := h 'x' (initial [])
  revert this
  decide

/-- C15, amended: `handlePhaseVoltage` and `handlePowerControl` return with
`repeat_enabled` equal to its value on entry, for every operator input, valid
or not; `handleModeSelection` does write the flag: after a valid selection
('1', '2' or '3') it returns with the flag true, whatever it was on entry. -/
theorem C15_flag_writers (ch : Char) (v : float) (line : String) (s : State) :
    (handlePhaseVoltage v s).repeat_enabled = s.repeat_enabled ∧
    (handlePowerControl line s).repeat_enabled = s.repeat_enabled ∧
    (ch = '1' ∨ ch = '2' ∨ ch = '3' → (handleModeSelection ch s).repeat_enabled = true) := by
  refine ⟨?_, ?_, ?_⟩
  · unfold handlePhaseVoltage
    split_ifs <;> rfl
  · unfold handlePowerControl
    split_ifs <;> rfl
  · intro h
    rcases h with rfl | rfl | rfl <;> simp [handleModeSelection]

/-- C15 amended, at a rejected voltage, an unknown control word and the selection '1'
made with the flag cleared. -/
theorem C15_flag_writers_witness :
    (handlePhaseVoltage { m := 450, e := 0 } (initial [])).repeat_enabled
      = (initial []).repeat_enabled ∧
    (handlePowerControl "no" (initial [])).repeat_enabled = (initial []).repeat_enabled ∧
    (handleModeSelection '1' { initial [] with repeat_enabled := false }).repeat_enabled
      = true :=
  ⟨(C15_flag_writers '1' { m := 450, e := 0 } "no" (initial [])).1,
   (C15_flag_writers '1' { m := 450, e := 0 } "no" (initial [])).2.1,
   (C15_flag_writers '1' { m := 450, e := 0 } "no"
      { initial [] with repeat_enabled := false }).2.2 (Or.inl rfl)⟩

/-! ## The phase acknowledgment -/

/-- The mask `0x1FFFFFFF` keeps the low 29 bits of an identifier. -/
theorem mask_29 (id : Nat) : id &&& 0x1FFFFFFF = id % 2 ^ 29 :=
  Nat.and_pow_two_sub_one_eq_mod id 29

/-- The acceptance test reads only the low 29 identifier bits and the first
four payload bytes of the frame. -/
theorem response_matches_congr (m m' : twai_message_t) ( expected_prefix : List Nat)
    (hid : m'.identifier % 2 ^ 29 = m.identifier % 2 ^ 29)
    (hdata : m'.data.take 4 = m.data.take 4)
    (hm : 4 ≤ m.data.length) (hm' : 4 ≤ m'.data.length)
    (hexp : 4 ≤ expected_prefix.length) :
    response_matches m' expected_prefix = response_matches m expected_prefix := by
  have h1 := memcmp_eq_zero_iff 4 m.data expected_prefix hm hexp
  have h2 := memcmp_eq_zero_iff 4 m'.data expected_prefix hm' hexp
  have h3 : (memcmp m'.data expected_prefix 4 = 0) ↔ (memcmp m.data expected_prefix 4 = 0) := by
    rw [h1, h2, hdata]
  simp only [response_matches, mask_29, hid, h3]

/-- C17 (phase acknowledgment uses a 4-byte prefix): with the phase pattern
`check_response` returns true if and only if a frame is received within the
window, its identifier masked with `0x1FFFFFFF` equals `0x061F8008`, and its
first four payload bytes are `0x42, 0xF0, 0x00, 0x84`; replacing the received
frame by one with the same low 29 identifier bits and the same first four
payload bytes (any top three identifier bits, any bytes 4 to 7) does not change
the result. -/
theorem C17_phase_ack_four_bytes (timeout_ms : Nat) (s : State)
    (hwf : ∀ m, some m ∈ s.bus → m.data.length = 8) :
    ((check_response phase_cmd_resp timeout_ms s).1 = true ↔
      ∃ m rest, s.bus = some m :: rest ∧ m.identifier &&& 0x1FFFFFFF = 0x061F8008 ∧
        m.data.take 4 = [0x42, 0xF0, 0x00, 0x84]) ∧
    (∀ (m m' : twai_message_t) (rest : List (Option twai_message_t)),
      s.bus = some m :: rest →
      m'.identifier % 2 ^ 29 = m.identifier % 2 ^ 29 →
      m'.data.take 4 = m.data.take 4 → m'.data.length = 8 →
      (check_response phase_cmd_resp timeout_ms { s with bus := some m' :: rest }).1 =
        (check_response phase_cmd_resp timeout_ms s).1) := by
  constructor
  · exact check_response_true_iff phase_cmd_resp timeout_ms s (by decide) hwf
  · intro m m' rest hb hid hdata hlen
    have hm : m.data.length = 8 := hwf m (by simp [hb])
    rw [check_response_cons phase_cmd_resp timeout_ms s (some m) rest hb,
      check_response_cons phase_cmd_resp timeout_ms { s with bus := some m' :: rest }
        (some m') rest rfl]
    simp only [outcome_matches]
    exact response_matches_congr m m' phase_cmd_resp hid hdata (by omega) (by omega) (by decide)

/-- C17 at a phase acknowledgment whose identifier has the top three bits set
and whose bytes 4 to 7 are `0x08, 0xFC, 0xEA, 0x60`: accepted. -/
theorem C17_phase_ack_four_bytes_witness :
    (check_response phase_cmd_resp 500
      (initial [some ⟨0xE61F8008, 8, 1, [0x42, 0xF0, 0x00, 0x84, 0x08, 0xFC, 0xEA, 0x60]⟩])).1
      = true :=
  have hwf : ∀ m, some m ∈
      (initial [some ⟨0xE61F8008, 8, 1, [0x42, 0xF0, 0x00, 0x84, 0x08, 0xFC, 0xEA, 0x60]⟩]).bus →
      m.data.length = 8 := by
    intro m hm
    simp only [initial, List.mem_singleton, Option.some.injEq] at hm
    subst hm
    decide
  (C17_phase_ack_four_bytes 500
    (initial [some ⟨0xE61F8008, 8, 1, [0x42, 0xF0, 0x00, 0x84, 0x08, 0xFC, 0xEA, 0x60]⟩])
    hwf).1.mpr
    ⟨⟨0xE61F8008, 8, 1, [0x42, 0xF0, 0x00, 0x84, 0x08, 0xFC, 0xEA, 0x60]⟩, [], rfl,
     by decide, by decide⟩

/-! ## The order of the wizard steps -/

/-- The step after each handler, for a state in the step the handler serves. -/
theorem handlePowerOnOff_step (line : String) (s : State) (hstep : s.step = Step.STEP_POWER_ON) :
    (handlePowerOnOff line s).step = Step.STEP_POWER_ON ∨
    ((handlePowerOnOff line s).step = Step.STEP_SELECT_MODE ∧
      (send_command_with_retry 0x06180F81 power_on_cmd power_on_resp 5 s).1 = true ∧
      trim line = "off" ∧
      (send_command_with_retry 0x06180F81 power_off_cmd power_off_resp 5
          { (send_command_with_retry 0x06180F81 power_on_cmd power_on_resp 5 s).2 with
            power_on := false }).1 = true) := by
  have h1 : (send_command_with_retry 0x06180F81 power_on_cmd power_on_resp 5 s).2.step
      = Step.STEP_POWER_ON :=
    (retry_loop_frame 0x06180F81 power_on_cmd power_on_resp (5 : Int).toNat s).1.trans hstep
  have h2 : (send_command_with_retry 0x06180F81 power_off_cmd power_off_resp 5
          { (send_command_with_retry 0x06180F81 power_on_cmd power_on_resp 5 s).2 with
            power_on := false }).2.step = Step.STEP_POWER_ON :=
    (retry_loop_frame 0x06180F81 power_off_cmd power_off_resp (5 : Int).toNat _).1.trans h1
  unfold handlePowerOnOff
  by_cases hon : (send_command_with_retry 0x06180F81 power_on_cmd power_on_resp 5 s).1 = true
  · by_cases hline : trim line = "off"
    · by_cases hoff : (send_command_with_retry 0x06180F81 power_off_cmd power_off_resp 5
          { (send_command_with_retry 0x06180F81 power_on_cmd power_on_resp 5 s).2 with
            power_on := false }).1 = true
      · right
        simp [hon, hline, hoff]
      · left
        simp [hon, hline, hoff, h2]
    · left
      simp [hon, hline, h1]
  · left
    simp [hon, h1]

theorem handleSetMode_step (s : State) :
    (handleSetMode s).step = s.step ∨ (handleSetMode s).step = Step.STEP_INPUT_PHASE := by
  have h := (retry_loop_frame 0x06180F81 (get_mode_cmd s.selected_mode)
    (get_mode_response s.selected_mode) (5 : Int).toNat s).1
  simp only [handleSetMode]
  split_ifs
  · right; rfl
  · left; exact h

theorem handleSetPhase_step (s : State) :
    (handleSetPhase s).step = s.step ∨ (handleSetPhase s).step = Step.STEP_POWER_CTRL := by
  have h := (retry_loop_frame 0x06180F81 s.phase_cmd phase_cmd_resp (5 : Int).toNat s).1
  simp only [handleSetPhase]
  split_ifs
  · right; rfl
  · left; exact h

theorem handleModeSelection_step (ch : Char) (s : State) :
    (handleModeSelection ch s).step = s.step ∨
      (handleModeSelection ch s).step = Step.STEP_SET_MODE := by
  unfold handleModeSelection
  simp only
  split_ifs <;> simp

theorem handlePhaseVoltage_step (v : float) (s : State) :
    (handlePhaseVoltage v s).step = s.step ∨
      (handlePhaseVoltage v s).step = Step.STEP_SET_PHASE := by
  unfold handlePhaseVoltage
  split_ifs <;> simp

theorem handlePowerControl_step (line : String) (s : State) :
    (handlePowerControl line s).step = s.step ∨
      (handlePowerControl line s).step = Step.STEP_POWER_ON := by
  unfold handlePowerControl
  split_ifs <;> simp

/-- C16 (step order): one turn of `loop`, for every state, operator input and
bus behaviour, either leaves the step unchanged, or moves it to the next value
of `enum Step` (SelectMode 0, SetMode 1, InputPhase 2, SetPhase 3,
PowerControl 4, PowerOn 5), or, from PowerOn only and only after an
acknowledged power-on, the line "off" and an acknowledged power-off, takes it
back to SelectMode. -/
theorem C16_step_order (op : Operator) (s : State) :
    (loop op s).step = s.step ∨
    (loop op s).step.toNat = s.step.toNat + 1 ∨
    (s.step = Step.STEP_POWER_ON ∧ (loop op s).step = Step.STEP_SELECT_MODE ∧
      (send_command_with_retry 0x06180F81 power_on_cmd power_on_resp 5 s).1 = true ∧
      trim op.line = "off" ∧
      (send_command_with_retry 0x06180F81 power_off_cmd power_off_resp 5
          { (send_command_with_retry 0x06180F81 power_on_cmd power_on_resp 5 s).2 with
            power_on := false }).1 = true) := by
  rcases hs : s.step
  · have h := handleModeSelection_step op.ch s
    simp only [loop, hs] at h ⊢
    rcases h with h | h
    · left; exact h
    · right; left; rw [h]; rfl
  · have h := handleSetMode_step s
    simp only [loop, hs] at h ⊢
    rcases h with h | h
    · left; exact h
    · right; left; rw [h]; rfl
  · have h := handlePhaseVoltage_step op.voltage s
    simp only [loop, hs] at h ⊢
    rcases h with h | h
    · left; exact h
    · right; left; rw [h]; rfl
  · have h := handleSetPhase_step s
    simp only [loop, hs] at h ⊢
    rcases h with h | h
    · left; exact h
    · right; left; rw [h]; rfl
  · have h := handlePowerControl_step op.line s
    simp only [loop, hs] at h ⊢
    rcases h with h | h
    · left; exact h
    · right; left; rw [h]; rfl
  · have h := handlePowerOnOff_step op.line s hs
    simp only [loop, hs]
    rcases h with h | h
    · left; exact h
    · right; right; exact ⟨trivial, h⟩

/-! ## The slot invariant along runs of the wizard -/

/-- What a session of five retries leaves behind. -/
theorem session_effect (can_id : Nat) (data expected_response : List Nat) (s : State) :
    (send_command_with_retry can_id data expected_response 5 s).2.last_cmd =
      command_frame can_id data ∧
    (send_command_with_retry can_id data expected_response 5 s).2.has_cmd = true ∧
    (send_command_with_retry can_id data expected_response 5 s).2.step = s.step ∧
    (send_command_with_retry can_id data expected_response 5 s).2.selected_mode =
      s.selected_mode ∧
    (send_command_with_retry can_id data expected_response 5 s).2.phase_cmd = s.phase_cmd := by
  have h1 := retry_loop_slot can_id data expected_response (5 : Int).toNat s (Or.inl (by decide))
  have h2 := retry_loop_frame can_id data expected_response (5 : Int).toNat s
  exact ⟨h1.1, h1.2, h2.1, h2.2.1, h2.2.2.1⟩

theorem slot_ok_of_frame (s : State) (data : List Nat)
    (hslot : s.last_cmd = command_frame 0x06180F81 data) (hhead : data.head? = some 3) :
    slot_ok s := by
  have hd : (data.take 8).head? = some 3 := by
    cases data with
    | nil => simp at hhead
    | cons a as => simpa using hhead
  simp [slot_ok, hslot, command_frame, hd]

theorem get_mode_cmd_head (i : Nat) (hi : i < 3) : (get_mode_cmd i).head? = some 3 := by
  have h : i = 0 ∨ i = 1 ∨ i = 2 := by omega
  rcases h with rfl | rfl | rfl <;> decide

theorem wizard_inv_initial (bus : List (Option twai_message_t)) : wizard_inv (initial bus) := by
  simp [wizard_inv, initial]

theorem wizard_inv_handleModeSelection (ch : Char) (s : State) (hinv : wizard_inv s)
    (hs : s.step = Step.STEP_SELECT_MODE) : wizard_inv (handleModeSelection ch s) := by
  obtain ⟨h1, -, h3⟩ := hinv
  unfold handleModeSelection
  simp only
  split_ifs
  · exact ⟨by simp, by simp, h3⟩
  · exact ⟨by simp, by simp, h3⟩
  · exact ⟨by simp, by simp, h3⟩
  · exact ⟨h1, by simp [hs], h3⟩

theorem wizard_inv_handleSetMode (s : State) (hinv : wizard_inv s)
    (hs : s.step = Step.STEP_SET_MODE) : wizard_inv (handleSetMode s) := by
  obtain ⟨h1, -, -⟩ := hinv
  obtain ⟨e1, e2, e3, e4, e5⟩ := session_effect 0x06180F81 (get_mode_cmd s.selected_mode)
    (get_mode_response s.selected_mode) s
  have hok := get_mode_cmd_head s.selected_mode h1
  simp only [handleSetMode]
  split_ifs
  · exact ⟨by simpa [e4] using h1, by simp, fun _ => slot_ok_of_frame _ _ e1 hok⟩
  · exact ⟨by simpa [e4] using h1, by simp [e3, hs], fun _ => slot_ok_of_frame _ _ e1 hok⟩

theorem wizard_inv_handlePhaseVoltage (v : float) (s : State) (hinv : wizard_inv s)
    (hs : s.step = Step.STEP_INPUT_PHASE) : wizard_inv (handlePhaseVoltage v s) := by
  obtain ⟨h1, -, h3⟩ := hinv
  unfold handlePhaseVoltage
  split_ifs
  · exact ⟨h1, by simp [hs], h3⟩
  · exact ⟨h1, by simp, h3⟩

theorem wizard_inv_handleSetPhase (s : State) (hinv : wizard_inv s)
    (hs : s.step = Step.STEP_SET_PHASE) : wizard_inv (handleSetPhase s) := by
  obtain ⟨h1, h2, -⟩ := hinv
  obtain ⟨e1, e2, e3, e4, e5⟩ := session_effect 0x06180F81 s.phase_cmd phase_cmd_resp s
  have hok := h2 hs
  simp only [handleSetPhase]
  split_ifs
  · exact ⟨by simpa [e4] using h1, by simp, fun _ => slot_ok_of_frame _ _ e1 hok⟩
  · exact ⟨by simpa [e4] using h1, fun _ => by rw [e5]; exact hok,
      fun _ => slot_ok_of_frame _ _ e1 hok⟩

theorem wizard_inv_handlePowerControl (line : String) (s : State) (hinv : wizard_inv s)
    (hs : s.step = Step.STEP_POWER_CTRL) : wizard_inv (handlePowerControl line s) := by
  obtain ⟨h1, -, h3⟩ := hinv
  unfold handlePowerControl
  split_ifs
  · exact ⟨h1, by simp, h3⟩
  · exact ⟨h1, by simp [hs], h3⟩

theorem wizard_inv_handlePowerOnOff (line : String) (s : State) (hinv : wizard_inv s)
    (hs : s.step = Step.STEP_POWER_ON) : wizard_inv (handlePowerOnOff line s) := by
  obtain ⟨h1, -, -⟩ := hinv
  obtain ⟨e1, e2, e3, e4, e5⟩ := session_effect 0x06180F81 power_on_cmd power_on_resp s
  obtain ⟨f1, f2, f3, f4, f5⟩ := session_effect 0x06180F81 power_off_cmd power_off_resp
    { (send_command_with_retry 0x06180F81 power_on_cmd power_on_resp 5 s).2 with
      power_on := false }
  have g3 := f3.trans e3
  have g4 := f4.trans e4
  simp only [handlePowerOnOff]
  split_ifs
  · exact ⟨lt_of_eq_of_lt g4 h1, by simp,
      fun _ => slot_ok_of_frame _ _ f1 (by decide)⟩
  · exact ⟨lt_of_eq_of_lt g4 h1,
      fun h => absurd (hs.symm.trans (g3.symm.trans h)) (by decide),
      fun _ => slot_ok_of_frame _ _ f1 (by decide)⟩
  · exact ⟨by simpa [e4] using h1, by simp [e3, hs],
      fun _ => slot_ok_of_frame _ _ e1 (by decide)⟩
  · exact ⟨by simpa [e4] using h1, by simp [e3, hs],
      fun _ => slot_ok_of_frame _ _ e1 (by decide)⟩

/-- One turn of `loop` keeps the invariant. -/
theorem wizard_inv_loop (op : Operator) (s : State) (hinv : wizard_inv s) :
    wizard_inv (loop op s) := by
  rcases hs : s.step
  · simpa only [loop, hs] using wizard_inv_handleModeSelection op.ch s hinv hs
  · simpa only [loop, hs] using wizard_inv_handleSetMode s hinv hs
  · simpa only [loop, hs] using wizard_inv_handlePhaseVoltage op.voltage s hinv hs
  · simpa only [loop, hs] using wizard_inv_handleSetPhase s hinv hs
  · simpa only [loop, hs] using wizard_inv_handlePowerControl op.line s hinv hs
  · simpa only [loop, hs] using wizard_inv_handlePowerOnOff op.line s hinv hs

theorem wizard_inv_run_loop (ops : List Operator) :
    ∀ s : State, wizard_inv s → wizard_inv (run_loop ops s) := by
  induction ops with
  | nil => intro s h; exact h
  | cons op ops ih => intro s h; exact ih _ (wizard_inv_loop op s h)

/-- No turn of `loop` clears `has_cmd`. -/
theorem loop_has_cmd (op : Operator) (s : State) (h : s.has_cmd = true) :
    (loop op s).has_cmd = true := by
  have e := fun (d r : List Nat) (t : State) => (session_effect 0x06180F81 d r t).2.1
  unfold loop
  split
  · unfold handleModeSelection
    simp only
    split_ifs <;> exact h
  · simp only [handleSetMode]
    split_ifs <;> exact e _ _ _
  · unfold handlePhaseVoltage
    split_ifs <;> exact h
  · simp only [handleSetPhase]
    split_ifs <;> exact e _ _ _
  · unfold handlePowerControl
    split_ifs <;> exact h
  · simp only [handlePowerOnOff]
    split_ifs <;> exact e _ _ _

theorem run_loop_has_cmd (ops : List Operator) :
    ∀ s : State, s.has_cmd = true → (run_loop ops s).has_cmd = true := by
  induction ops with
  | nil => intro s h; exact h
  | cons op ops ih => intro s h; exact ih _ (loop_has_cmd op s h)

/-- C18 (fixed command identifier): in every state reached from the start-up
state (empty slot, step SelectMode) by turns of `loop`, under any operator
inputs and any bus behaviour, an occupied slot holds a frame with identifier
`0x06180F81` (which is below `2 ^ 29`), data length 8, the extended-frame flag
and first payload byte `0x03`; and whatever turns follow, `has_cmd` stays true. -/
theorem C18_fixed_command_identifier (bus : List (Option twai_message_t))
    (ops more : List Operator)
    (hoccupied : (run_loop ops (initial bus)).has_cmd = true) :
    (run_loop ops (initial bus)).last_cmd.identifier = 0x06180F81 ∧
    0x06180F81 < 2 ^ 29 ∧
    (run_loop ops (initial bus)).last_cmd.data_length_code = 8 ∧
    (run_loop ops (initial bus)).last_cmd.flags = TWAI_MSG_FLAG_EXTD ∧
    (run_loop ops (initial bus)).last_cmd.data.head? = some 3 ∧
    (run_loop more (run_loop ops (initial bus))).has_cmd = true := by
  obtain ⟨-, -, h3⟩ := wizard_inv_run_loop ops (initial bus) (wizard_inv_initial bus)
  obtain ⟨a, b, c, d⟩ := h3 hoccupied
  exact ⟨a, by decide, b, c, d, run_loop_has_cmd more _ hoccupied⟩

/-- C18 after the selection '2' and one exhausted mode-set session on a silent
bus: the slot is occupied by the OffGrid mode command, and stays occupied over
two further turns. -/
theorem C18_fixed_command_identifier_witness :
    (run_loop [⟨'2', ⟨230, 0⟩, "on"⟩, ⟨'2', ⟨230, 0⟩, "on"⟩] (initial [])).has_cmd = true ∧
    (run_loop [⟨'2', ⟨230, 0⟩, "on"⟩, ⟨'2', ⟨230, 0⟩, "on"⟩]
      (initial [])).last_cmd.identifier = 0x06180F81 ∧
    (run_loop [⟨'2', ⟨230, 0⟩, "on"⟩, ⟨'2', ⟨230, 0⟩, "on"⟩]
      (initial [])).last_cmd.data.head? = some 3 ∧
    (run_loop [⟨'2', ⟨230, 0⟩, "on"⟩, ⟨'2', ⟨230, 0⟩, "on"⟩]
      (run_loop [⟨'2', ⟨230, 0⟩, "on"⟩, ⟨'2', ⟨230, 0⟩, "on"⟩] (initial []))).has_cmd = true :=
  ⟨by decide,
   (C18_fixed_command_identifier [] [⟨'2', ⟨230, 0⟩, "on"⟩, ⟨'2', ⟨230, 0⟩, "on"⟩]
      [⟨'2', ⟨230, 0⟩, "on"⟩, ⟨'2', ⟨230, 0⟩, "on"⟩] (by decide)).1,
   (C18_fixed_command_identifier [] [⟨'2', ⟨230, 0⟩, "on"⟩, ⟨'2', ⟨230, 0⟩, "on"⟩]
      [⟨'2', ⟨230, 0⟩, "on"⟩, ⟨'2', ⟨230, 0⟩, "on"⟩] (by decide)).2.2.2.2.1,
   (C18_fixed_command_identifier [] [⟨'2', ⟨230, 0⟩, "on"⟩, ⟨'2', ⟨230, 0⟩, "on"⟩]
      [⟨'2', ⟨230, 0⟩, "on"⟩, ⟨'2', ⟨230, 0⟩, "on"⟩] (by decide)).2.2.2.2.2⟩

/-! ## Truncation and the rounding of the product -/

theorem roundShift_ge (n k : Nat) : n / 2 ^ k ≤ roundShift n k := by
  unfold roundShift
  simp only
  split_ifs <;> omega

/-- Binary32 rounding of a value below `2 ^ 24` never goes below a whole number
that the value has reached. -/
theorem round32_ge_nat (x : float) (h : 0 ≤ x.m) (N : Nat) (hN : (N : ℚ) ≤ x.toRat)
    (hx24 : x.toRat < 2 ^ 24) : (N : ℚ) ≤ (round32 x).toRat := by
  rcases h.eq_or_lt with h0 | hpos
  · have hm : x.m = 0 := h0.symm
    have h1 : x.toRat = 0 := by simp [float.toRat, hm]
    have h2 : (round32 x).toRat = 0 := by simp [round32, float.toRat, hm]
    rw [h2]
    rw [h1] at hN
    exact hN
  · obtain ⟨n, hn⟩ : ∃ n : Nat, x.m = n := ⟨x.m.toNat, (Int.toNat_of_nonneg h).symm⟩
    have hnpos : 0 < n := by omega
    have hsign : x.m.sign = 1 := Int.sign_eq_one_of_pos hpos
    have habs : x.m.natAbs = n := by simp [hn]
    have h2e : (0 : ℚ) < (2 : ℚ) ^ x.e := zpow_pos (by norm_num) _
    have hxval : x.toRat = (n : ℚ) * (2 : ℚ) ^ x.e := by simp [float.toRat, hn]
    obtain ⟨k, hk⟩ : ∃ k, max (bitlen n - 24) (-149 - x.e).toNat = k := ⟨_, rfl⟩
    have hval : (round32 x).toRat = ((roundShift n k * 2 ^ k : Nat) : ℚ) * (2 : ℚ) ^ x.e := by
      simp only [round32, float.toRat, hsign, habs, one_mul, hk]
      push_cast
      rw [zpow_add₀ (by norm_num : (2 : ℚ) ≠ 0), zpow_natCast]
      ring
    by_cases hk0 : k = 0
    · subst hk0
      rw [hval, roundShift_zero]
      simpa [hxval] using hN
    · have hek : x.e + (k : Int) ≤ 0 := by
        rcases lt_or_le (bitlen n - 24) (-149 - x.e).toNat with hab | hba
        · have hkb : k = (-149 - x.e).toNat := by rw [← hk]; exact max_eq_right hab.le
          have hpos149 : 0 < -149 - x.e := by
            by_contra hneg
            have : (-149 - x.e).toNat = 0 := Int.toNat_eq_zero.mpr (by omega)
            omega
          have hkz : ((k : Nat) : Int) = -149 - x.e := by
            rw [hkb]; exact Int.toNat_of_nonneg hpos149.le
          omega
        · have hka : k = bitlen n - 24 := by rw [← hk]; exact max_eq_left hba
          have hbl := bitlen_spec n
          have hblpos : 0 < bitlen n := by omega
          have h1 := hbl.2 hblpos
          have h2 : bitlen n - 1 = k + 23 := by omega
          rw [h2] at h1
          have h3 : (2 : ℚ) ^ (k + 23) ≤ (n : ℚ) := by exact_mod_cast h1
          by_contra hcon
          have hge : (24 : Int) ≤ ((k + 23 : Nat) : Int) + x.e := by push_cast; omega
          have h4 : (2 : ℚ) ^ (24 : Int) ≤ (2 : ℚ) ^ (((k + 23 : Nat) : Int) + x.e) :=
            zpow_le_zpow_right₀ (by norm_num) hge
          rw [zpow_add₀ (by norm_num : (2 : ℚ) ≠ 0), zpow_natCast] at h4
          have h5 : (2 : ℚ) ^ (k + 23) * (2 : ℚ) ^ x.e ≤ (n : ℚ) * (2 : ℚ) ^ x.e :=
            mul_le_mul_of_nonneg_right h3 h2e.le
          have h6 : (2 : ℚ) ^ (24 : Int) = 2 ^ 24 := by norm_num
          rw [hxval] at hx24
          linarith
      obtain ⟨j, hj⟩ : ∃ j : Nat, (j : Int) = -(x.e + (k : Int)) :=
        ⟨(-(x.e + (k : Int))).toNat, Int.toNat_of_nonneg (by omega)⟩
      have hprod : (2 : ℚ) ^ x.e * ((2 : ℚ) ^ j * (2 : ℚ) ^ k) = 1 := by
        rw [← zpow_natCast (2 : ℚ) j, ← zpow_natCast (2 : ℚ) k,
          ← zpow_add₀ (by norm_num : (2 : ℚ) ≠ 0), ← zpow_add₀ (by norm_num : (2 : ℚ) ≠ 0)]
        have : x.e + ((j : Int) + (k : Int)) = 0 := by omega
        rw [this, zpow_zero]
      have hjk : (0 : ℚ) ≤ (2 : ℚ) ^ j * (2 : ℚ) ^ k := by positivity
      have hNq : (N : ℚ) * ((2 : ℚ) ^ j * (2 : ℚ) ^ k) ≤ (n : ℚ) := by
        have h1 := mul_le_mul_of_nonneg_right hN hjk
        rw [hxval, mul_assoc, hprod, mul_one] at h1
        exact h1
      have hNat : N * 2 ^ j * 2 ^ k ≤ n := by
        have : ((N * 2 ^ j * 2 ^ k : Nat) : ℚ) ≤ (n : ℚ) := by
          push_cast
          rw [mul_assoc]
          exact hNq
        exact_mod_cast this
      have hdiv : N * 2 ^ j ≤ n / 2 ^ k := (Nat.le_div_iff_mul_le (by positivity)).2 hNat
      have hR : N * 2 ^ j ≤ roundShift n k := hdiv.trans (roundShift_ge n k)
      have hRq : (N : ℚ) * (2 : ℚ) ^ j ≤ (roundShift n k : ℚ) := by exact_mod_cast hR
      have hek2 : (0 : ℚ) ≤ (2 : ℚ) ^ k * (2 : ℚ) ^ x.e := by positivity
      have h7 := mul_le_mul_of_nonneg_right hRq hek2
      have h8 : (N : ℚ) * (2 : ℚ) ^ j * ((2 : ℚ) ^ k * (2 : ℚ) ^ x.e) = (N : ℚ) := by
        have : (N : ℚ) * (2 : ℚ) ^ j * ((2 : ℚ) ^ k * (2 : ℚ) ^ x.e) =
            (N : ℚ) * ((2 : ℚ) ^ x.e * ((2 : ℚ) ^ j * (2 : ℚ) ^ k)) := by ring
        rw [this, hprod, mul_one]
      rw [h8] at h7
      rw [hval]
      push_cast
      linarith

/-- The 16-bit conversion of a value in `[0, 65536)` is its floor. -/
theorem to_uint16_eq_floor (x : float) (h0 : 0 ≤ x.toRat) (h1 : x.toRat < 65536) :
    ((to_uint16 x : Nat) : Int) = ⌊x.toRat⌋ := by
  have hm : 0 ≤ x.m := (float.toRat_nonneg_iff x).1 h0
  have hfl := float.trunc_eq_floor x hm
  have hlo : 0 ≤ ⌊x.toRat⌋ := Int.floor_nonneg.mpr h0
  have hhi : ⌊x.toRat⌋ < 65536 := by
    rw [Int.floor_lt]
    push_cast
    exact h1
  unfold to_uint16
  rw [hfl]
  omega

/-- For a voltage in `[0, 420]` the converted product is more than `v * 10 - 1`. -/
theorem to_uint16_mul_ten_gt (v : float) (h0 : 0 ≤ v.toRat) (h420 : v.toRat ≤ 420) :
    v.toRat * 10 - 1 < ((to_uint16 (float.mul v { m := 10, e := 0 }) : Nat) : ℚ) := by
  have hm : 0 ≤ v.m := (float.toRat_nonneg_iff v).1 h0
  have hxm : 0 ≤ v.m * 10 := by omega
  have hx : ({ m := v.m * 10, e := v.e + 0 } : float).toRat = v.toRat * 10 := by
    simp only [float.toRat, add_zero]
    push_cast
    ring
  have hmul : float.mul v { m := 10, e := 0 } = round32 { m := v.m * 10, e := v.e + 0 } := rfl
  have hfloor0 : 0 ≤ ⌊v.toRat * 10⌋ := Int.floor_nonneg.mpr (by linarith)
  obtain ⟨N, hN⟩ : ∃ N : Nat, (N : Int) = ⌊v.toRat * 10⌋ :=
    ⟨⌊v.toRat * 10⌋.toNat, Int.toNat_of_nonneg hfloor0⟩
  have hNle : (N : ℚ) ≤ v.toRat * 10 := by
    have h1 : ((⌊v.toRat * 10⌋ : Int) : ℚ) ≤ v.toRat * 10 := Int.floor_le _
    rw [← hN] at h1
    exact_mod_cast h1
  have hNgt : v.toRat * 10 < (N : ℚ) + 1 := by
    have h1 : v.toRat * 10 < ((⌊v.toRat * 10⌋ : Int) : ℚ) + 1 := Int.lt_floor_add_one _
    rw [← hN] at h1
    exact_mod_cast h1
  have hge := round32_ge_nat { m := v.m * 10, e := v.e + 0 } hxm N (by rw [hx]; exact hNle)
    (by rw [hx]; norm_num; linarith)
  rw [← hmul] at hge
  have hfl : (N : Int) ≤ ⌊(float.mul v { m := 10, e := 0 }).toRat⌋ := by
    rw [Int.le_floor]
    exact_mod_cast hge
  rw [← to_uint16_mul_ten v h0 h420] at hfl
  have hq : (N : ℚ) ≤ ((to_uint16 (float.mul v { m := 10, e := 0 }) : Nat) : ℚ) := by
    exact_mod_cast hfl
  linarith

/-- C19, the claim refuted: the binary32 number nearest to 0.7 is
`11744051 / 2 ^ 24`, a voltage in `[0, 420]`; ten times it is below 7 with
floor 6, the single-precision product rounds up to 7, `floatToHexBytes` yields
`(0, 7)`, and the decoded value `7 / 10` is above the voltage. -/
theorem C19_decoded_exceeds_counterexample :
    float.is_binary32 { m := 11744051, e := -24 } ∧
    (0 : ℚ) ≤ ({ m := 11744051, e := -24 } : float).toRat ∧
    ({ m := 11744051, e := -24 } : float).toRat ≤ 420 ∧
    floatToHexBytes { m := 11744051, e := -24 } { m := 10, e := 0 } = (0, 7) ∧
    ⌊({ m := 11744051, e := -24 } : float).toRat * 10⌋ = 6 ∧
    ¬ ((((floatToHexBytes { m := 11744051, e := -24 } { m := 10, e := 0 }).1 * 256 +
          (floatToHexBytes { m := 11744051, e := -24 } { m := 10, e := 0 }).2 : Nat) : ℚ) / 10
        ≤ ({ m := 11744051, e := -24 } : float).toRat) := by
  have hv : ({ m := 11744051, e := -24 } : float).toRat = 11744051 / 16777216 := by
    norm_num [float.toRat, zpow_neg]
  have hcode : floatToHexBytes { m := 11744051, e := -24 } { m := 10, e := 0 } = (0, 7) := by
    decide
  refine ⟨by unfold float.is_binary32; decide, by rw [hv]; norm_num, by rw [hv]; norm_num,
    hcode, ?_, ?_⟩
  · rw [hv, Int.floor_eq_iff]
    norm_num
  · rw [hcode, hv]
    norm_num

/-- C19, amended: `floatToHexBytes` truncates and splits big-endian: for every
value and scale whose single-precision product `p` satisfies `0 ≤ p < 65536`,
`high * 256 + low` equals the floor of `p`, with `high` that integer div 256 and
`low` that integer mod 256; so for every voltage `v` in `[0, 420.0]` the decoded
value `(high * 256 + low) / 10` is less than 0.1 below `v` and at most a tenth
of the computed product `v * 10`. -/
theorem C19_truncates_computed_product (value unit_scale v : float)
    (hp0 : 0 ≤ (float.mul value unit_scale).toRat)
    (hp1 : (float.mul value unit_scale).toRat < 65536)
    (h0 : 0 ≤ v.toRat) (h420 : v.toRat ≤ 420) :
    ((((floatToHexBytes value unit_scale).1 * 256 +
        (floatToHexBytes value unit_scale).2 : Nat) : Int) =
      ⌊(float.mul value unit_scale).toRat⌋) ∧
    (floatToHexBytes value unit_scale).1 = ⌊(float.mul value unit_scale).toRat⌋.toNat / 256 ∧
    (floatToHexBytes value unit_scale).2 = ⌊(float.mul value unit_scale).toRat⌋.toNat % 256 ∧
    v.toRat - 1 / 10 <
      (((floatToHexBytes v { m := 10, e := 0 }).1 * 256 +
        (floatToHexBytes v { m := 10, e := 0 }).2 : Nat) : ℚ) / 10 ∧
    (((floatToHexBytes v { m := 10, e := 0 }).1 * 256 +
        (floatToHexBytes v { m := 10, e := 0 }).2 : Nat) : ℚ) / 10 ≤
      (float.mul v { m := 10, e := 0 }).toRat / 10 := by
  have hs := to_uint16_eq_floor (float.mul value unit_scale) hp0 hp1
  have hsv := to_uint16_mul_ten v h0 h420
  have hgt := to_uint16_mul_ten_gt v h0 h420
  have hsplit : ∀ n : Nat, n / 256 * 256 + n % 256 = n := fun n => by omega
  rw [floatToHexBytes_eq, floatToHexBytes_eq]
  simp only [hsplit]
  refine ⟨hs, ?_, ?_, ?_, ?_⟩
  · rw [← hs]; rfl
  · rw [← hs]; rfl
  · linarith
  · have hle : ((⌊(float.mul v { m := 10, e := 0 }).toRat⌋ : Int) : ℚ) ≤
        (float.mul v { m := 10, e := 0 }).toRat := Int.floor_le _
    rw [← hsv] at hle
    have hle2 : ((to_uint16 (float.mul v { m := 10, e := 0 }) : Nat) : ℚ) ≤
        (float.mul v { m := 10, e := 0 }).toRat := by exact_mod_cast hle
    linarith

/-- C19 amended, at value 0.7 (binary32) and scale 10: the computed product is 7. -/
theorem C19_truncates_computed_product_witness :
    ((((floatToHexBytes { m := 11744051, e := -24 } { m := 10, e := 0 }).1 * 256 +
        (floatToHexBytes { m := 11744051, e := -24 } { m := 10, e := 0 }).2 : Nat) : Int) =
      ⌊(float.mul { m := 11744051, e := -24 } { m := 10, e := 0 }).toRat⌋) ∧
    ({ m := 11744051, e := -24 } : float).toRat - 1 / 10 <
      (((floatToHexBytes { m := 11744051, e := -24 } { m := 10, e := 0 }).1 * 256 +
        (floatToHexBytes { m := 11744051, e := -24 } { m := 10, e := 0 }).2 : Nat) : ℚ) / 10 :=
  have hp : float.mul { m := 11744051, e := -24 } { m := 10, e := 0 }
      = { m := 14680064, e := -21 } := by decide
  have hv : ({ m := 11744051, e := -24 } : float).toRat = 11744051 / 16777216 := by
    norm_num [float.toRat, zpow_neg]
  have h := C19_truncates_computed_product { m := 11744051, e := -24 } { m := 10, e := 0 }
    { m := 11744051, e := -24 }
    (by rw [hp]; norm_num [float.toRat, zpow_neg])
    (by rw [hp]; norm_num [float.toRat, zpow_neg])
    (by rw [hv]; norm_num) (by rw [hv]; norm_num)
  ⟨h.1, h.2.2.2.1⟩

/-! ## The phase command payload -/

theorem roundShift_le_succ (n k : Nat) : roundShift n k ≤ n / 2 ^ k + 1 := by
  unfold roundShift
  simp only
  split_ifs <;> omega

theorem roundShift_of_dvd (a k : Nat) : roundShift (a * 2 ^ k) k = a := by
  have hpos : 0 < 2 ^ k := by positivity
  unfold roundShift
  simp only [Nat.mul_div_cancel a hpos, Nat.mul_mod_left]
  simp [hpos]

/-- Binary32 rounding of a value below `2 ^ 24` never goes above a whole number
that the value has not passed. -/
theorem round32_le_nat (x : float) (h : 0 ≤ x.m) (M : Nat) (hM : x.toRat ≤ (M : ℚ))
    (hx24 : x.toRat < 2 ^ 24) : (round32 x).toRat ≤ (M : ℚ) := by
  rcases h.eq_or_lt with h0 | hpos
  · have hm : x.m = 0 := h0.symm
    have h2 : (round32 x).toRat = 0 := by simp [round32, float.toRat, hm]
    rw [h2]
    exact Nat.cast_nonneg M
  · obtain ⟨n, hn⟩ : ∃ n : Nat, x.m = n := ⟨x.m.toNat, (Int.toNat_of_nonneg h).symm⟩
    have hnpos : 0 < n := by omega
    have hsign : x.m.sign = 1 := Int.sign_eq_one_of_pos hpos
    have habs : x.m.natAbs = n := by simp [hn]
    have h2e : (0 : ℚ) < (2 : ℚ) ^ x.e := zpow_pos (by norm_num) _
    have hxval : x.toRat = (n : ℚ) * (2 : ℚ) ^ x.e := by simp [float.toRat, hn]
    obtain ⟨k, hk⟩ : ∃ k, max (bitlen n - 24) (-149 - x.e).toNat = k := ⟨_, rfl⟩
    have hval : (round32 x).toRat = ((roundShift n k * 2 ^ k : Nat) : ℚ) * (2 : ℚ) ^ x.e := by
      simp only [round32, float.toRat, hsign, habs, one_mul, hk]
      push_cast
      rw [zpow_add₀ (by norm_num : (2 : ℚ) ≠ 0), zpow_natCast]
      ring
    by_cases hk0 : k = 0
    · subst hk0
      rw [hval, roundShift_zero]
      simpa [hxval] using hM
    · have hek : x.e + (k : Int) ≤ 0 := by
        rcases lt_or_le (bitlen n - 24) (-149 - x.e).toNat with hab | hba
        · have hkb : k = (-149 - x.e).toNat := by rw [← hk]; exact max_eq_right hab.le
          have hpos149 : 0 < -149 - x.e := by
            by_contra hneg
            have : (-149 - x.e).toNat = 0 := Int.toNat_eq_zero.mpr (by omega)
            omega
          have hkz : ((k : Nat) : Int) = -149 - x.e := by
            rw [hkb]; exact Int.toNat_of_nonneg hpos149.le
          omega
        · have hka : k = bitlen n - 24 := by rw [← hk]; exact max_eq_left hba
          have hbl := bitlen_spec n
          have hblpos : 0 < bitlen n := by omega
          have h1 := hbl.2 hblpos
          have h2 : bitlen n - 1 = k + 23 := by omega
          rw [h2] at h1
          have h3 : (2 : ℚ) ^ (k + 23) ≤ (n : ℚ) := by exact_mod_cast h1
          by_contra hcon
          have hge : (24 : Int) ≤ ((k + 23 : Nat) : Int) + x.e := by push_cast; omega
          have h4 : (2 : ℚ) ^ (24 : Int) ≤ (2 : ℚ) ^ (((k + 23 : Nat) : Int) + x.e) :=
            zpow_le_zpow_right₀ (by norm_num) hge
          rw [zpow_add₀ (by norm_num : (2 : ℚ) ≠ 0), zpow_natCast] at h4
          have h5 : (2 : ℚ) ^ (k + 23) * (2 : ℚ) ^ x.e ≤ (n : ℚ) * (2 : ℚ) ^ x.e :=
            mul_le_mul_of_nonneg_right h3 h2e.le
          have h6 : (2 : ℚ) ^ (24 : Int) = 2 ^ 24 := by norm_num
          rw [hxval] at hx24
          linarith
      obtain ⟨j, hj⟩ : ∃ j : Nat, (j : Int) = -(x.e + (k : Int)) :=
        ⟨(-(x.e + (k : Int))).toNat, Int.toNat_of_nonneg (by omega)⟩
      have hprod : (2 : ℚ) ^ x.e * ((2 : ℚ) ^ j * (2 : ℚ) ^ k) = 1 := by
        rw [← zpow_natCast (2 : ℚ) j, ← zpow_natCast (2 : ℚ) k,
          ← zpow_add₀ (by norm_num : (2 : ℚ) ≠ 0), ← zpow_add₀ (by norm_num : (2 : ℚ) ≠ 0)]
        have : x.e + ((j : Int) + (k : Int)) = 0 := by omega
        rw [this, zpow_zero]
      have hjk : (0 : ℚ) ≤ (2 : ℚ) ^ j * (2 : ℚ) ^ k := by positivity
      have hMq : (n : ℚ) ≤ (M : ℚ) * ((2 : ℚ) ^ j * (2 : ℚ) ^ k) := by
        have h1 := mul_le_mul_of_nonneg_right hM hjk
        rw [hxval, mul_assoc, hprod, mul_one] at h1
        exact h1
      have hNat : n ≤ M * 2 ^ j * 2 ^ k := by
        have : (n : ℚ) ≤ ((M * 2 ^ j * 2 ^ k : Nat) : ℚ) := by
          push_cast
          rw [mul_assoc]
          exact hMq
        exact_mod_cast this
      have hR : roundShift n k ≤ M * 2 ^ j := by
        rcases hNat.eq_or_lt with heq | hlt
        · rw [heq, roundShift_of_dvd]
        · have hq : n / 2 ^ k < M * 2 ^ j := (Nat.div_lt_iff_lt_mul (by positivity)).2 hlt
          have := roundShift_le_succ n k
          omega
      have hRq : (roundShift n k : ℚ) ≤ (M : ℚ) * (2 : ℚ) ^ j := by exact_mod_cast hR
      have hek2 : (0 : ℚ) ≤ (2 : ℚ) ^ k * (2 : ℚ) ^ x.e := by positivity
      have h7 := mul_le_mul_of_nonneg_right hRq hek2
      have h8 : (M : ℚ) * (2 : ℚ) ^ j * ((2 : ℚ) ^ k * (2 : ℚ) ^ x.e) = (M : ℚ) := by
        have : (M : ℚ) * (2 : ℚ) ^ j * ((2 : ℚ) ^ k * (2 : ℚ) ^ x.e) =
            (M : ℚ) * ((2 : ℚ) ^ x.e * ((2 : ℚ) ^ j * (2 : ℚ) ^ k)) := by ring
        rw [this, hprod, mul_one]
      rw [h8] at h7
      rw [hval]
      push_cast
      linarith

/-- For a voltage in `[0, 420]` the single-precision product with ten lies
between the whole numbers next to the exact `v * 10`: its floor is the floor or
the ceiling of `v * 10`. -/
theorem floor_mul_ten_bracket (v : float) (h0 : 0 ≤ v.toRat) (h420 : v.toRat ≤ 420) :
    ⌊v.toRat * 10⌋ ≤ ⌊(float.mul v { m := 10, e := 0 }).toRat⌋ ∧
    ⌊(float.mul v { m := 10, e := 0 }).toRat⌋ ≤ ⌈v.toRat * 10⌉ := by
  have hm : 0 ≤ v.m := (float.toRat_nonneg_iff v).1 h0
  have hxm : 0 ≤ v.m * 10 := by omega
  have hx : ({ m := v.m * 10, e := v.e + 0 } : float).toRat = v.toRat * 10 := by
    simp only [float.toRat, add_zero]
    push_cast
    ring
  have hmul : float.mul v { m := 10, e := 0 } = round32 { m := v.m * 10, e := v.e + 0 } := rfl
  have hx0 : (0 : ℚ) ≤ v.toRat * 10 := by linarith
  have h24 : ({ m := v.m * 10, e := v.e + 0 } : float).toRat < 2 ^ 24 := by
    rw [hx]; norm_num; linarith
  obtain ⟨N, hN⟩ : ∃ N : Nat, (N : Int) = ⌊v.toRat * 10⌋ :=
    ⟨⌊v.toRat * 10⌋.toNat, Int.toNat_of_nonneg (Int.floor_nonneg.mpr hx0)⟩
  obtain ⟨M, hMc⟩ : ∃ M : Nat, (M : Int) = ⌈v.toRat * 10⌉ :=
    ⟨⌈v.toRat * 10⌉.toNat, Int.toNat_of_nonneg (Int.ceil_nonneg hx0)⟩
  have hNle : (N : ℚ) ≤ v.toRat * 10 := by
    have h1 : ((⌊v.toRat * 10⌋ : Int) : ℚ) ≤ v.toRat * 10 := Int.floor_le _
    rw [← hN] at h1
    exact_mod_cast h1
  have hMge : v.toRat * 10 ≤ (M : ℚ) := by
    have h1 : v.toRat * 10 ≤ ((⌈v.toRat * 10⌉ : Int) : ℚ) := Int.le_ceil _
    rw [← hMc] at h1
    exact_mod_cast h1
  have hge := round32_ge_nat { m := v.m * 10, e := v.e + 0 } hxm N (by rw [hx]; exact hNle) h24
  have hle := round32_le_nat { m := v.m * 10, e := v.e + 0 } hxm M (by rw [hx]; exact hMge) h24
  rw [← hmul] at hge hle
  constructor
  · rw [← hN, Int.le_floor]
    exact_mod_cast hge
  · rw [← hMc]
    have h1 : ((⌊(float.mul v { m := 10, e := 0 }).toRat⌋ : Int) : ℚ) ≤ (M : ℚ) :=
      (Int.floor_le _).trans hle
    exact_mod_cast h1

/-- C8 (phase command payload): for every voltage `v` with `0 ≤ v ≤ 420.0` the
payload built by `handlePhaseVoltage` is
`[0x03, 0x00, 0x00, 0x84, volt_hi, volt_lo, 0xEA, 0x60]`, where `volt_hi` and
`volt_lo` are the quotient and the remainder by 256 of a number `E` below 65536:
`E` is the integer part of the single-precision product `v * 10`, it lies from
the floor to the ceiling of the exact `v * 10`, and it is `v * 10` itself when
that is a whole number; `0xEA60 = 60000` is `60 * 1000`; for `v = 230.0`, where
`v * 10 = 2300 = 0x08FC`, the payload is
`[0x03, 0x00, 0x00, 0x84, 0x08, 0xFC, 0xEA, 0x60]`. -/
theorem C8_phase_payload (v : float) (s : State) (h0 : 0 ≤ v.toRat) (h420 : v.toRat ≤ 420) :
    (handlePhaseVoltage v s).phase_cmd =
      [0x03, 0x00, 0x00, 0x84,
       ⌊(float.mul v { m := 10, e := 0 }).toRat⌋.toNat / 256,
       ⌊(float.mul v { m := 10, e := 0 }).toRat⌋.toNat % 256, 0xEA, 0x60] ∧
    0 ≤ ⌊(float.mul v { m := 10, e := 0 }).toRat⌋ ∧
    ⌊(float.mul v { m := 10, e := 0 }).toRat⌋ < 65536 ∧
    ⌊v.toRat * 10⌋ ≤ ⌊(float.mul v { m := 10, e := 0 }).toRat⌋ ∧
    ⌊(float.mul v { m := 10, e := 0 }).toRat⌋ ≤ ⌈v.toRat * 10⌉ ∧
    (∀ n : Nat, v.toRat * 10 = (n : ℚ) →
      ⌊(float.mul v { m := 10, e := 0 }).toRat⌋ = (n : Int)) ∧
    (0xEA * 256 + 0x60 = 60000 ∧
      ({ m := 60, e := 0 } : float).toRat * ({ m := 1000, e := 0 } : float).toRat = 60000) ∧
    ((handlePhaseVoltage { m := 230, e := 0 } s).phase_cmd =
        [0x03, 0x00, 0x00, 0x84, 0x08, 0xFC, 0xEA, 0x60] ∧
      ({ m := 230, e := 0 } : float).toRat * 10 = ((0x08 * 256 + 0xFC : Nat) : ℚ)) := by
  have hfreq : floatToHexBytes { m := 60, e := 0 } { m := 1000, e := 0 } = (0xEA, 0x60) := by
    decide
  have h230 : floatToHexBytes { m := 230, e := 0 } { m := 10, e := 0 } = (0x08, 0xFC) := by
    decide
  have hlt230 : float.lt { m := 420, e := 0 } { m := 230, e := 0 } = false := by decide
  have hfl := to_uint16_mul_ten v h0 h420
  have hE : to_uint16 (float.mul v { m := 10, e := 0 }) =
      ⌊(float.mul v { m := 10, e := 0 }).toRat⌋.toNat := by
    rw [← hfl]
    rfl
  have hlt := to_uint16_lt (float.mul v { m := 10, e := 0 })
  obtain ⟨hlo, hhi⟩ := floor_mul_ten_bracket v h0 h420
  refine ⟨?_, by omega, by omega, hlo, hhi, ?_, ⟨by decide, by norm_num [float.toRat]⟩,
    ⟨?_, by norm_num [float.toRat]⟩⟩
  · rw [← hE]
    simp [handlePhaseVoltage, float.lt_420_eq_false v h420, floatToHexBytes_eq v, hfreq]
  · intro n hn
    rw [hn] at hlo hhi
    rw [Int.floor_natCast] at hlo
    rw [Int.ceil_natCast] at hhi
    omega
  · simp [handlePhaseVoltage, hlt230, h230, hfreq]

/-- C8 at the voltages 230.5 (ten times it is 2305 = `0x0901`) and 230.0. -/
theorem C8_phase_payload_witness :
    (0 : ℚ) ≤ ({ m := 461, e := -1 } : float).toRat ∧
    ({ m := 461, e := -1 } : float).toRat ≤ 420 ∧
    ⌊(float.mul { m := 461, e := -1 } { m := 10, e := 0 }).toRat⌋ = 2305 ∧
    floatToHexBytes { m := 461, e := -1 } { m := 10, e := 0 } = (0x09, 0x01) ∧
    (handlePhaseVoltage { m := 461, e := -1 } (initial [])).phase_cmd =
      [0x03, 0x00, 0x00, 0x84, 0x09, 0x01, 0xEA, 0x60] ∧
    (handlePhaseVoltage { m := 230, e := 0 } (initial [])).phase_cmd =
      [0x03, 0x00, 0x00, 0x84, 0x08, 0xFC, 0xEA, 0x60] :=
  have hv0 : (0 : ℚ) ≤ ({ m := 461, e := -1 } : float).toRat := by
    norm_num [float.toRat, zpow_neg]
  have hv1 : ({ m := 461, e := -1 } : float).toRat ≤ 420 := by
    norm_num [float.toRat, zpow_neg]
  have hx : ({ m := 461, e := -1 } : float).toRat * 10 = ((2305 : Nat) : ℚ) := by
    norm_num [float.toRat, zpow_neg]
  have h := C8_phase_payload { m := 461, e := -1 } (initial []) hv0 hv1
  have hfloor : ⌊(float.mul { m := 461, e := -1 } { m := 10, e := 0 }).toRat⌋ = 2305 :=
    h.2.2.2.2.2.1 2305 hx
  ⟨hv0, hv1, hfloor, by decide, by rw [h.1, hfloor]; rfl, h.2.2.2.2.2.2.2.1⟩

end TwaiController
